import Mathlib

/-!
Verification of the winter-app streaming conversation engine.

Shallow embedding of the Rust sources:
* `src-tauri/src/lib.rs` — `execute_tool`, `stream_response`, `chat_send`
* `src-tauri/src/claude/tools.rs` — same tool executor, factored
* `src-tauri/src/opencode/client.rs` — `subscribe_sse` (bridge client)

External effects (process spawning, filesystem, the HTTP transport, the
serde JSON text parser) are modelled as explicit oracle parameters, so all
definitions are executable and every branch of the Rust code appears as a
branch of the corresponding Lean function.
-/

namespace Winter

/-- Model of `serde_json::Value`. Numbers are modelled as integers (the
payload fields read by the code are token counts and strings only). -/
inductive Json where
  | null
  | bool (b : Bool)
  | num (n : Int)
  | str (s : String)
  | arr (xs : List Json)
  | obj (fields : List (String × Json))
deriving Repr, Inhabited

/-- `value[key]` indexing of `serde_json::Value`: on an object, the value of
the first field with that key; `Null` on a missing key or non-object. -/
def Json.getField : Json → String → Json
  | .obj fields, key =>
      match fields.find? (fun f => f.1 == key) with
      | some f => f.2
      | none => .null
  | _, _ => .null

/-- `Value::as_str`. -/
def Json.asStr : Json → Option String
  | .str s => some s
  | _ => none

/-- `Value::as_u64`: a non-negative integer number. -/
def Json.asU64 : Json → Option Nat
  | .num n => if n < 0 then none else some n.toNat
  | _ => none

/-- The unified domain-event vocabulary (`ChatStreamEvent` in
`lib.rs` / `claude/types.rs`; the bridge path additionally emits
`Reasoning`). -/
inductive ChatStreamEvent where
  | streamStart
  | delta (text : String)
  | toolStart (name id : String)
  | toolEnd (id result : String)
  | streamEnd
  | error (message : String)
  | ollamaStatus (status : String)
  | statusEv (text : String)
  | usage (inputTokens outputTokens : Nat)
  | reasoning (text : String)
deriving Repr, DecidableEq, Inhabited

/-- `ContentBlock` from `lib.rs`. -/
inductive ContentBlock where
  | text (t : String)
  | image (sourceType mediaType data : String)
  | toolUse (id name : String) (input : Json)
  | toolResult (toolUseId content : String) (isError : Option Bool)
deriving Repr, Inhabited

/-- `MessageContent` from `lib.rs`: plain string or blocks. -/
inductive MessageContent where
  | str (s : String)
  | blocks (bs : List ContentBlock)
deriving Repr, Inhabited

/-- `ChatMessage` from `lib.rs`. -/
structure ChatMessage where
  role : String
  content : MessageContent
deriving Repr, Inhabited

-- ── Tool execution (`execute_tool` in lib.rs; `claude/tools.rs` holds the
-- identical factored copy) ──────────────────────────────────────────────

/-- `MAX_OUTPUT`: 512 KiB output cap of `shell_exec`. -/
def MAX_OUTPUT : Nat := 512 * 1024

/-- Outcome of the spawned `bash -c` subprocess, as observed by the code:
either the process completed (stdout, stderr, `status.code()`), spawning
failed, or the 120 s timeout fired. `exitCode = none` models a process
killed by a signal; `success` mirrors `status.success()`. -/
inductive ShellOutcome where
  | completed (stdout stderr : String) (exitCode : Option Int) (success : Bool)
  | execError (msg : String)
  | timedOut
deriving Repr, DecidableEq, Inhabited

/-- Outcome of a filesystem read (`tokio::fs::read_to_string`). -/
inductive FsOutcome where
  | ok (content : String)
  | err (msg : String)
deriving Repr, DecidableEq, Inhabited

/-- Outcome of `tokio::fs::read_dir` plus the entry walk: a list of
(name, is_dir) pairs, or an error message. -/
inductive DirOutcome where
  | ok (entries : List (String × Bool))
  | err (msg : String)
deriving Repr, DecidableEq, Inhabited

/-- All external effects one `execute_tool` call can consult; each tool
branch reads only its own component. -/
structure ToolOracle where
  shell : ShellOutcome
  readRes : FsOutcome
  writeRes : Option String
  dirRes : DirOutcome
deriving Repr, Inhabited

/-- The fixed deny-list of destructive shell patterns (`blocked` in
`execute_tool` / `exec_shell`). -/
def blockedPatterns : List String :=
  ["rm -rf /", "rm -rf ~", "mkfs.", "dd if=", ":()\x7b", "fork bomb",
   "> /dev/sd", "chmod -R 777 /", "curl|bash", "wget|bash", "curl|sh", "wget|sh"]

/-- `str::contains(pattern)` — substring test on the character sequence. -/
def strContains (s pat : String) : Bool :=
  decide (pat.toList <:+: s.toList)

/-- `str::to_lowercase()` modelled per character (the deny-list patterns
are ASCII, so per-character lowering matches the Rust behaviour on the
checked patterns). -/
def lowerStr (s : String) : String :=
  String.mk (s.data.map Char.toLower)

/-- The first deny-list pattern contained in the (already lowercased)
command, if any. -/
def findBlocked (cmdLower : String) : Option String :=
  blockedPatterns.find? (fun p => strContains cmdLower p)

/-- The blocked-command error text. -/
def blockedMsg (pattern : String) : String :=
  "Blocked: dangerous command pattern \x27" ++ pattern ++ "\x27 detected"

/-- Output-size capping of `exec_shell`, at character granularity. This is
the non-panicking approximation used to plumb results onward; the source
truncates at a BYTE index (`result.truncate(512 * 1024)`), whose panic on
a non-boundary index is modelled faithfully by `capOutputBytes` below. -/
def capOutput (s : String) : String :=
  if s.length > MAX_OUTPUT then (s.take MAX_OUTPUT) ++ "\n...[truncated at 512KB]" else s

/-- Byte length of the UTF-8 encoding of one character. -/
def charBytes (c : Char) : Nat :=
  if c.toNat < 0x80 then 1
  else if c.toNat < 0x800 then 2
  else if c.toNat < 0x10000 then 3
  else 4

/-- UTF-8 byte length of a character list (`String::len` in Rust counts
bytes, not characters). -/
def byteLenL : List Char → Nat
  | [] => 0
  | c :: cs => charBytes c + byteLenL cs

/-- UTF-8 byte length of a string — Rust `String::len`. -/
def byteLen (s : String) : Nat := byteLenL s.data

/-- The characters whose encodings lie wholly below byte index `n`, or
`none` when `n` falls strictly inside a character (no char boundary). -/
def takeBytes : List Char → Nat → Option (List Char)
  | _, 0 => some []
  | [], _ + 1 => some []
  | c :: cs, n + 1 =>
      if charBytes c ≤ n + 1 then
        (takeBytes cs (n + 1 - charBytes c)).map (fun l => c :: l)
      else none

/-- Rust `String::truncate(n)`: a no-op when `n` is at least the byte
length; otherwise it asserts that `n` is a char boundary — `none` models
the panic when that assert fires. -/
def truncateBytes (s : String) (n : Nat) : Option String :=
  if byteLen s ≤ n then some s
  else (takeBytes s.data n).map String.mk

/-- Byte-faithful model of the oversized-output branch of `exec_shell`
(lib.rs:229-232, tools.rs:118-121): when the result exceeds `MAX_OUTPUT`
BYTES, `result.truncate(MAX_OUTPUT)` runs with a byte index and the
truncation marker is appended; `none` is the `String::truncate` panic on
a non-boundary index. -/
def capOutputBytes (s : String) : Option String :=
  if byteLen s > MAX_OUTPUT then
    (truncateBytes s MAX_OUTPUT).map (fun t => t ++ "\n...[truncated at 512KB]")
  else some s

/-- Merging of stdout/stderr and the empty-output fallback of `exec_shell`. -/
def assembleShellOutput (stdout stderr : String) (exitCode : Option Int) : String :=
  let r0 : String := if stdout.isEmpty then "" else stdout
  let r1 : String :=
    if stderr.isEmpty then r0
    else (if r0.isEmpty then r0 else r0 ++ "\n") ++ "[stderr] " ++ stderr
  if r1.isEmpty then "(exit code " ++ toString (exitCode.getD (-1)) ++ ")" else r1

/-- The `shell_exec` branch of `execute_tool`: deny-list gate, then the
subprocess via the oracle, then output assembly and capping. -/
def exec_shell (input : Json) (oracle : ToolOracle) : String × Bool :=
  let cmd := (input.getField "command").asStr.getD ""
  let cmdLower := lowerStr cmd
  match findBlocked cmdLower with
  | some p => (blockedMsg p, true)
  | none =>
    match oracle.shell with
    | .completed stdout stderr exitCode success =>
        (capOutput (assembleShellOutput stdout stderr exitCode), !success)
    | .execError e => ("Failed to execute: " ++ e, true)
    | .timedOut => ("Command timed out after 120s", true)

/-- The `file_read` branch. -/
def read_file (input : Json) (oracle : ToolOracle) : String × Bool :=
  let path := (input.getField "path").asStr.getD ""
  match oracle.readRes with
  | .ok content => (content, false)
  | .err e => ("Error reading " ++ path ++ ": " ++ e, true)

/-- The `file_write` branch (parent-directory creation is effect-only and
has no observable result here). -/
def write_file (input : Json) (oracle : ToolOracle) : String × Bool :=
  let path := (input.getField "path").asStr.getD ""
  match oracle.writeRes with
  | none => ("Written to " ++ path, false)
  | some e => ("Error writing " ++ path ++ ": " ++ e, true)

/-- Insertion sort on strings, modelling `Vec::sort` on the entry names. -/
def insertSorted (x : String) : List String → List String
  | [] => [x]
  | y :: ys => if x ≤ y then x :: y :: ys else y :: insertSorted x ys

/-- Sorted listing used by `file_list`. -/
def sortStrings (l : List String) : List String :=
  l.foldr insertSorted []

/-- The `file_list` branch: names sorted, directories marked with a
trailing `/`. -/
def list_dir (input : Json) (oracle : ToolOracle) : String × Bool :=
  let path := (input.getField "path").asStr.getD "."
  match oracle.dirRes with
  | .ok entries =>
      let items := entries.map (fun e => if e.2 then e.1 ++ "/" else e.1)
      (String.intercalate "\n" (sortStrings items), false)
  | .err e => ("Error listing " ++ path ++ ": " ++ e, true)

/-- `execute_tool`: dispatch on the tool name; unknown names are an error
result, never a failure. -/
def execute_tool (name : String) (input : Json) (oracle : ToolOracle) : String × Bool :=
  match name with
  | "shell_exec" => exec_shell input oracle
  | "file_read" => read_file input oracle
  | "file_write" => write_file input oracle
  | "file_list" => list_dir input oracle
  | _ => ("Unknown tool: " ++ name, true)

/-- The four tool names `execute_tool` dispatches on. -/
def knownTools : List String := ["shell_exec", "file_read", "file_write", "file_list"]

-- ── `stream_response` (lib.rs): SSE framing and event dispatch ─────────

/-- The mutable locals of the `stream_response` read loop. -/
structure SseState where
  buffer : String
  text_content : String
  tool_uses : List (String × String × String)
  current_block_type : String
  current_tool_id : String
  current_tool_name : String
  current_tool_input_json : String
  stop_reason : String
  input_tokens : Nat
  output_tokens : Nat
deriving Repr, Inhabited

/-- The initial locals of `stream_response` before the first chunk. -/
def SseState.init : SseState :=
  ⟨"", "", [], "", "", "", "", "", 0, 0⟩

/-- The `serde_json::from_str::<Value>` text parser, supplied as an oracle:
everything the code observes about the parse is captured by this
function. -/
abbrev JsonParser := String → Option Json

/-- `str::find("\n\n")`: index of the first blank-line separator. -/
def findNN : List Char → Option Nat
  | [] => none
  | '\n' :: '\n' :: _ => some 0
  | _ :: rest => (findNN rest).map (· + 1)

/-- The `while let Some(pos) = buffer.find("\n\n")` frame-extraction loop
of both read loops: split off complete frames, keep the remainder. The
fuel is the buffer length, which bounds the iteration count (each
iteration consumes at least two characters). -/
def extractFramesAux : Nat → List Char → List String × List Char
  | 0, cs => ([], cs)
  | fuel + 1, cs =>
      match findNN cs with
      | none => ([], cs)
      | some pos =>
          let r := extractFramesAux fuel (cs.drop (pos + 2))
          (String.mk (cs.take pos) :: r.1, r.2)

/-- Complete frames of a buffer plus the unconsumed remainder. -/
def extractFrames (buffer : String) : List String × String :=
  let r := extractFramesAux buffer.data.length buffer.data
  (r.1, String.mk r.2)

/-- `str::lines()`-style split at newline characters (a trailing empty
line is kept; it matches no `event:`/`data:` prefix, so the frame scan is
unaffected). -/
def splitLines : List Char → List (List Char)
  | [] => [[]]
  | '\n' :: rest => [] :: splitLines rest
  | c :: rest =>
      match splitLines rest with
      | [] => [[c]]
      | l :: ls => (c :: l) :: ls

/-- `str::strip_prefix`. -/
def stripPrefixChars : List Char → List Char → Option (List Char)
  | [], cs => some cs
  | p :: ps, c :: cs => if c = p then stripPrefixChars ps cs else none
  | _ :: _, [] => none

/-- Per-frame line scan of `stream_response`: the last `event: ` line and
the last `data: ` line of the block (later lines overwrite earlier
ones, as in the Rust fold over `lines()`). -/
def parseFrame (block : String) : String × String :=
  (splitLines block.data).foldl
    (fun acc line =>
      match stripPrefixChars "event: ".data line with
      | some rest => (String.mk rest, acc.2)
      | none =>
          match stripPrefixChars "data: ".data line with
          | some rest => (acc.1, String.mk rest)
          | none => acc)
    ("", "")

/-- Dispatch of one complete frame by event name (the `match
event_type.as_str()` of `stream_response`). Returns the new locals and
the domain events sent on the channel by this frame. -/
def handleEvent (jp : JsonParser) (st : SseState) (eventType data : String) :
    SseState × List ChatStreamEvent :=
  match eventType with
  | "message_start" =>
      match jp data with
      | some p =>
          match ((p.getField "message").getField "usage" |>.getField "input_tokens").asU64 with
          | some t => ({ st with input_tokens := st.input_tokens + t }, [])
          | none => (st, [])
      | none => (st, [])
  | "content_block_start" =>
      match jp data with
      | some p =>
          let bt := ((p.getField "content_block").getField "type").asStr.getD ""
          if bt == "tool_use" then
            let id := ((p.getField "content_block").getField "id").asStr.getD ""
            let nm := ((p.getField "content_block").getField "name").asStr.getD ""
            ({ st with current_block_type := bt, current_tool_id := id,
                       current_tool_name := nm, current_tool_input_json := "" },
             [.toolStart nm id])
          else ({ st with current_block_type := bt }, [])
      | none => (st, [])
  | "content_block_delta" =>
      match jp data with
      | some p =>
          let dt := ((p.getField "delta").getField "type").asStr.getD ""
          if dt == "text_delta" then
            match ((p.getField "delta").getField "text").asStr with
            | some t => ({ st with text_content := st.text_content ++ t }, [.delta t])
            | none => (st, [])
          else if dt == "input_json_delta" then
            match ((p.getField "delta").getField "partial_json").asStr with
            | some j =>
                ({ st with current_tool_input_json := st.current_tool_input_json ++ j }, [])
            | none => (st, [])
          else (st, [])
      | none => (st, [])
  | "content_block_stop" =>
      if st.current_block_type == "tool_use" then
        ({ st with
             tool_uses := st.tool_uses ++
               [(st.current_tool_id, st.current_tool_name, st.current_tool_input_json)],
             current_block_type := "" }, [])
      else ({ st with current_block_type := "" }, [])
  | "message_delta" =>
      match jp data with
      | some p =>
          let st1 :=
            match ((p.getField "delta").getField "stop_reason").asStr with
            | some sr => { st with stop_reason := sr }
            | none => st
          match ((p.getField "usage").getField "output_tokens").asU64 with
          | some t =>
              ({ st1 with output_tokens := t }, [.usage st1.input_tokens t])
          | none => (st1, [])
      | none => (st, [])
  | "error" => (st, [.error data])
  | _ => (st, [])

/-- One complete `event:`/`data:` block. -/
def handleFrame (jp : JsonParser) (st : SseState) (block : String) :
    SseState × List ChatStreamEvent :=
  let (et, d) := parseFrame block
  handleEvent jp st et d

/-- Fold a list of frames, concatenating emissions. -/
def handleFrames (jp : JsonParser) (st : SseState) : List String → SseState × List ChatStreamEvent
  | [] => (st, [])
  | b :: bs =>
      let r1 := handleFrame jp st b
      let r2 := handleFrames jp r1.1 bs
      (r2.1, r1.2 ++ r2.2)

/-- One chunk arriving: append to the buffer, split off all complete
frames at `\n\n`, keep the remainder as the new buffer, and dispatch the
frames in order. -/
def processChunk (jp : JsonParser) (st : SseState) (chunk : String) :
    SseState × List ChatStreamEvent :=
  let r := extractFrames (st.buffer ++ chunk)
  handleFrames jp { st with buffer := r.2 } r.1

/-- How the read loop of `stream_response` ended. -/
inductive StreamStatus where
  | finished
  | aborted
  | failed (e : String)
deriving Repr, DecidableEq, Inhabited

/-- One entry of the chunked body: the cancellation-flag value observed at
this iteration, and the transport result of the read. -/
abbrev ChunkEntry := Bool × Except String String

/-- The chunk read loop: cancellation is polled after each read and, when
set, the loop stops at once (remaining chunks untouched); a transport
error fails the call. -/
def streamLoop (jp : JsonParser) (st : SseState) :
    List ChunkEntry → SseState × List ChatStreamEvent × StreamStatus
  | [] => (st, [], .finished)
  | (ab, c) :: rest =>
      if ab then (st, [], .aborted)
      else
        match c with
        | .error e => (st, [], .failed ("Stream error: " ++ e))
        | .ok chunk =>
            let r1 := processChunk jp st chunk
            let r2 := streamLoop jp r1.1 rest
            (r2.1, r1.2 ++ r2.2.1, r2.2.2)

/-- The provider round result (`StreamedResponse` in lib.rs). -/
structure StreamedResponse where
  text_content : String
  tool_uses : List (String × String × String)
  stop_reason : String
deriving Repr, Inhabited

/-- The HTTP response to one streaming request, as the code observes it:
status code, the body text (read only on a non-2xx, non-401 status), and
the chunked stream. -/
structure HttpResponse where
  status : Nat
  body : String
  chunks : List ChunkEntry
deriving Repr, Inhabited

/-- `reqwest::StatusCode::is_success`. -/
def isSuccessStatus (status : Nat) : Bool :=
  200 ≤ status && status ≤ 299

/-- `stream_response` (lib.rs): status gate first — a non-2xx never begins
streaming; 401 is the distinguished `AUTH_EXPIRED` error; any other
non-2xx is a hard failure carrying the body. On success, run the chunk
loop; on cancellation the partial tool calls are discarded and the result
is tagged `aborted`. Returns the events sent on the channel together with
the call result. -/
def stream_response (jp : JsonParser) (resp : HttpResponse) :
    List ChatStreamEvent × Except String StreamedResponse :=
  if isSuccessStatus resp.status then
    let (st, evs, status) := streamLoop jp SseState.init resp.chunks
    match status with
    | .failed e => (evs, .error e)
    | .aborted => (evs, .ok ⟨st.text_content, [], "aborted"⟩)
    | .finished => (evs, .ok ⟨st.text_content, st.tool_uses, st.stop_reason⟩)
  else if resp.status == 401 then ([], .error "AUTH_EXPIRED")
  else ([], .error ("Claude API error " ++ toString resp.status ++ ": " ++ resp.body))

-- ── `chat_send` (lib.rs): multi-round tool-use loop ────────────────────

/-- `MAX_TOOL_ROUNDS` from lib.rs. -/
def MAX_TOOL_ROUNDS : Nat := 25

/-- All collaborators and suspension-point outcomes one `chat_send` call
can observe, indexed by round where the code consults them per round.
`attempt1`/`attempt2` are the provider responses to the first and the
retried request of a round. -/
structure ChatEnv where
  jp : JsonParser
  getTok0 : Except String String
  tokCheck : Nat → Except String String
  refreshPre : Nat → Except String String
  refreshRetry : Nat → Except String String
  attempt1 : Nat → HttpResponse
  attempt2 : Nat → HttpResponse
  abortAt : Nat → Bool
  ollamaEnabled : Bool
  compressResult : Option (List ChatMessage)
  summarize : String → Option String
  toolOracle : Nat → Nat → ToolOracle

/-- Buffered tool-argument parsing in `chat_send`:
`serde_json::from_str(input_json).unwrap_or(json!({}))`. -/
def parseToolInput (jp : JsonParser) (inputJson : String) : Json :=
  (jp inputJson).getD (Json.obj [])

/-- The per-call tool loop of `chat_send`: parse the buffered arguments,
run the tool, optionally summarize an oversized non-error output, emit
`ToolEnd`, and build one `tool_result` block per call, in order. -/
def runTools (env : ChatEnv) (round : Nat) :
    Nat → List (String × String × String) → List ChatStreamEvent × List ContentBlock
  | _, [] => ([], [])
  | i, u :: rest =>
      let exec := execute_tool u.2.1 (parseToolInput env.jp u.2.2) (env.toolOracle round i)
      let so :=
        if env.ollamaEnabled && !exec.2 && exec.1.length > 3000 then
          match env.summarize exec.1 with
          | some s => ([ChatStreamEvent.ollamaStatus "summarizing"], "[Summarized]\n" ++ s)
          | none => ([ChatStreamEvent.ollamaStatus "summarizing"], exec.1)
        else ([], exec.1)
      let r := runTools env round (i + 1) rest
      (so.1 ++ [.toolEnd u.1 so.2] ++ r.1,
       .toolResult u.1 so.2 (if exec.2 then some true else none) :: r.2)

/-- The assistant blocks appended for a tool-use round: any accumulated
text, then one `tool_use` block per buffered call. -/
def assistantBlocks (jp : JsonParser) (r : StreamedResponse) : List ContentBlock :=
  (if r.text_content.isEmpty then [] else [ContentBlock.text r.text_content]) ++
    r.tool_uses.map (fun u => ContentBlock.toolUse u.1 u.2.1 (parseToolInput jp u.2.2))

/-- The pre-round credential check of rounds > 0: on `AUTH_EXPIRED` the
refresh lock is taken and the token refreshed (a refresh failure fails the
call); any other check error is ignored. -/
def preCheck (env : ChatEnv) (round : Nat) : Except String Unit :=
  match env.tokCheck round with
  | .error e =>
      if e == "AUTH_EXPIRED" then
        match env.refreshPre round with
        | .ok _ => .ok ()
        | .error re => .error re
      else .ok ()
  | .ok _ => .ok ()

/-- Fetching one round: call `stream_response`; on the distinguished
`AUTH_EXPIRED` error, refresh and retry the exact same request once (the
log of requests sent — each entry the transcript the request was built
from — is returned for inspection); any other error, or an error of the
retry, propagates. -/
def roundFetch (env : ChatEnv) (round : Nat) (conv : List ChatMessage) :
    List ChatStreamEvent × List (List ChatMessage) × Except String StreamedResponse :=
  let a1 := stream_response env.jp (env.attempt1 round)
  match a1.2 with
  | .ok r => (a1.1, [conv], .ok r)
  | .error e =>
      if e == "AUTH_EXPIRED" then
        match env.refreshRetry round with
        | .error re => (a1.1, [conv], .error re)
        | .ok _ =>
            let a2 := stream_response env.jp (env.attempt2 round)
            (a1.1 ++ a2.1, [conv, conv], a2.2)
      else (a1.1, [conv], .error e)

/-- The observable outcome of a `chat_send` call: the domain events sent on
the channel, the final transcript, the hard failure if any (`none`
corresponds to the `Ok(())` return), and the per-request transcript log. -/
structure ChatOutcome where
  events : List ChatStreamEvent
  conv : List ChatMessage
  err : Option String
  sent : List (List ChatMessage)
deriving Inhabited

/-- The round loop of `chat_send` (`for round in 0..MAX_TOOL_ROUNDS`),
with `fuel` the number of rounds remaining. Every exit of the loop body
falls through to the single `StreamEnd` send at the end of `chat_send`;
hard failures return without it. -/
def chatLoop (env : ChatEnv) : Nat → Nat → List ChatMessage → ChatOutcome
  | 0, _, conv => ⟨[.streamEnd], conv, none, []⟩
  | fuel + 1, round, conv =>
      if env.abortAt round then ⟨[.streamEnd], conv, none, []⟩
      else
        match (if round == 0 then Except.ok () else preCheck env round) with
        | .error e => ⟨[], conv, some e, []⟩
        | .ok _ =>
            match roundFetch env round conv with
            | (evs, sent, .error e) => ⟨evs, conv, some e, sent⟩
            | (evs, sent, .ok r) =>
                if r.stop_reason == "aborted" then
                  ⟨evs ++ [.streamEnd], conv, none, sent⟩
                else if r.stop_reason == "tool_use" && !r.tool_uses.isEmpty then
                  let conv1 := conv ++ [⟨"assistant", .blocks (assistantBlocks env.jp r)⟩]
                  let rt := runTools env round 0 r.tool_uses
                  let conv2 := conv1 ++ [⟨"user", .blocks rt.2⟩]
                  let out := chatLoop env fuel (round + 1) conv2
                  ⟨evs ++ rt.1 ++ out.events, out.conv, out.err, sent ++ out.sent⟩
                else ⟨evs ++ [.streamEnd], conv, none, sent⟩

/-- The pre-loop history-compression step of `chat_send`: the
`OllamaStatus` events sent and the (possibly replaced) transcript. -/
def compressStep (env : ChatEnv) (messages : List ChatMessage) :
    List ChatStreamEvent × List ChatMessage :=
  if env.ollamaEnabled && messages.length > 10 then
    match env.compressResult with
    | some c =>
        ([ChatStreamEvent.ollamaStatus "compressing",
          ChatStreamEvent.ollamaStatus "done"], c)
    | none =>
        ([ChatStreamEvent.ollamaStatus "compressing",
          ChatStreamEvent.ollamaStatus "compression_failed",
          ChatStreamEvent.ollamaStatus "done"], messages)
  else ([], messages)

/-- `chat_send` (lib.rs): initial credential read, `StreamStart`, the
optional pre-loop history compression, then the round loop. -/
def chat_send (env : ChatEnv) (messages : List ChatMessage) : ChatOutcome :=
  match env.getTok0 with
  | .error e => ⟨[], messages, some e, []⟩
  | .ok _ =>
      let comp := compressStep env messages
      let out := chatLoop env MAX_TOOL_ROUNDS 0 comp.2
      ⟨ChatStreamEvent.streamStart :: comp.1 ++ out.events, out.conv, out.err, out.sent⟩

-- ── `subscribe_sse` (opencode/client.rs): per-part state reconstruction ─

/-- `SseMessagePart` (opencode/types.rs), already deserialized (the serde
decode of the envelope is upstream of this handler). -/
structure SsePart where
  id : String
  sessionId : String
  messageId : Option String
  partType : String
  text : Option String
  tool : Option String
  callId : Option String
  state : Option Json
deriving Repr, Inhabited

/-- The per-subscription dedup/position state of `subscribe_sse` touched by
`message.part.updated` frames: last-observed cumulative text length per
part id, and the call ids whose `ToolStart` was already emitted. The
known/user message-id sets are carried separately as parameters (they are
only ever inserted into by `message.updated` frames). -/
structure BridgeState where
  textLengths : List (String × Nat)
  toolStarted : List String
deriving Repr, Inhabited

/-- Lookup in the part-id → length map (`HashMap::get`, defaulting to 0). -/
def lookupLen (m : List (String × Nat)) (k : String) : Nat :=
  (((m.find? (fun p => p.1 == k)).map (fun p => p.2)).getD 0)

/-- `HashMap::insert` on the model: new binding shadows any older one. -/
def setLen (m : List (String × Nat)) (k : String) (v : Nat) : List (String × Nat) :=
  (k, v) :: m

/-- The delegation-status heuristic of the `"running"` branch: the extra
`Status` events sent before `ToolStart` for `mcp_task` /
`mcp_delegate_task` calls. -/
def delegationStatusEvents (toolName inputJson : String) : List ChatStreamEvent :=
  let isDelegation := toolName == "mcp_task" || toolName == "mcp_delegate_task"
  let isSummer := isDelegation &&
    (strContains inputJson "\"sum\"" || strContains inputJson "\"mer\"" ||
     strContains inputJson "\"visual-engineering\"")
  if isSummer then [.statusEv "Delegating to Summer..."]
  else if isDelegation then
    let agent :=
      if strContains inputJson "\"oracle\"" then "Oracle"
      else if strContains inputJson "\"explore\"" then "exploring"
      else if strContains inputJson "\"librarian\"" then "researching"
      else if strContains inputJson "\"frost\"" then "Frost"
      else if strContains inputJson "\"spring\"" then "Spring"
      else "subagent"
    [.statusEv ("Delegating to " ++ agent ++ "...")]
  else []

/-- The `"tool"` branch of the part handler: `running` emits `ToolStart`
once per call id; `completed` backfills a missing `ToolStart` and emits
`ToolEnd` with the extracted output; `error` emits `ToolEnd` with the
error text. -/
def handleToolPart (st : BridgeState) (callId toolName : String) (stateJson : Json) :
    BridgeState × List ChatStreamEvent :=
  match (stateJson.getField "status").asStr.getD "" with
  | "running" =>
      if callId ∈ st.toolStarted then (st, [])
      else
        ({ st with toolStarted := callId :: st.toolStarted },
         delegationStatusEvents toolName ((stateJson.getField "input").asStr.getD "") ++
           [.toolStart toolName callId])
  | "completed" =>
      let output :=
        (((stateJson.getField "metadata").getField "output").asStr <|>
          (stateJson.getField "output").asStr).getD ""
      if callId ∈ st.toolStarted then (st, [.toolEnd callId output])
      else ({ st with toolStarted := callId :: st.toolStarted },
            [.toolStart toolName callId, .toolEnd callId output])
  | "error" =>
      let errorMsg := (stateJson.getField "error").asStr.getD "Tool execution failed"
      (st, [.toolEnd callId ("[error] " ++ errorMsg)])
  | _ => (st, [])

/-- The `match part.part_type.as_str()` body of the `message.part.updated`
handler, after the session and dedup filters. -/
def handlePartBody (st : BridgeState) (part : SsePart) : BridgeState × List ChatStreamEvent :=
  match part.partType with
  | "text" =>
      match part.text with
      | some fullText =>
          let prevLen := lookupLen st.textLengths part.id
          if fullText.length > prevLen then
            ({ st with textLengths := setLen st.textLengths part.id fullText.length },
             [.delta (fullText.drop prevLen)])
          else (st, [])
      | none => (st, [])
  | "tool" =>
      let callId := part.callId.getD ""
      let toolName := part.tool.getD "unknown"
      match part.state with
      | some stateJson => handleToolPart st callId toolName stateJson
      | none => (st, [])
  | "step-start" => (st, [.statusEv "thinking"])
  | "reasoning" =>
      match part.text with
      | some fullText =>
          let prevLen := lookupLen st.textLengths part.id
          if fullText.length > prevLen then
            ({ st with textLengths := setLen st.textLengths part.id fullText.length },
             [.reasoning (fullText.drop prevLen)])
          else (st, [])
      | none => (st, [])
  | _ => (st, [])

/-- The `message.part.updated` handler of `subscribe_sse`: session filter,
message-id dedup, then the per-type dispatch. `dedupIds` is the union of
the pre-fetched known message ids and the user message ids collected so
far. Cumulative text snapshots are turned into deltas against the
last-seen length; a snapshot not longer than the last-seen length emits
nothing. -/
def handlePartUpdated (sessionId : String) (dedupIds : List String)
    (st : BridgeState) (part : SsePart) : BridgeState × List ChatStreamEvent :=
  if part.sessionId != sessionId then (st, [])
  else
    match part.messageId with
    | some mid =>
        if dedupIds.contains mid then (st, [])
        else handlePartBody st part
    | none => handlePartBody st part

/-- A whole sequence of `message.part.updated` deliveries. -/
def runParts (sessionId : String) (dedupIds : List String) (st : BridgeState) :
    List SsePart → BridgeState × List ChatStreamEvent
  | [] => (st, [])
  | p :: ps =>
      let r1 := handlePartUpdated sessionId dedupIds st p
      let r2 := runParts sessionId dedupIds r1.1 ps
      (r2.1, r1.2 ++ r2.2)

-- ── `subscribe_sse` idle keep-alive / reconnect control skeleton ───────

/-- `IDLE_TIMEOUT` (seconds). -/
def IDLE_TIMEOUT : Nat := 60

/-- `MAX_IDLE_PINGS`. -/
def MAX_IDLE_PINGS : Nat := 3

/-- The idle bookkeeping of `subscribe_sse`: `idle_ping_count` and
`last_session_activity` (an absolute timestamp in seconds). -/
structure IdleSt where
  pingCount : Nat
  lastAct : Nat
deriving Repr, DecidableEq, Inhabited

/-- The observations `subscribe_sse` makes at its suspension points, each
carrying the clock value at that moment. Frame contents are classified by
their effect on the idle machinery: a session-matching frame resets the
idle clock and ping counter; `session.idle` and a failed assistant
message for this session terminate the subscription with `StreamEnd`. -/
inductive BridgeObs where
  | abortSeen (now : Nat)
  | connectFail (now : Nat)
  | connectOk (now : Nat)
  | readTimeout (now : Nat)
  | disconnect (now : Nat)
  | matchedFrame (now : Nat)
  | unmatchedFrame (now : Nat)
  | terminalFrame (now : Nat)
deriving Repr, DecidableEq, Inhabited

/-- The clock value carried by an observation. -/
def BridgeObs.time : BridgeObs → Nat
  | .abortSeen n | .connectFail n | .connectOk n | .readTimeout n
  | .disconnect n | .matchedFrame n | .unmatchedFrame n | .terminalFrame n => n

/-- How a `subscribe_sse` run ended. -/
inductive BridgeExit where
  | okAborted
  | okErrorExhausted
  | okTerminal
  | traceEnd
deriving Repr, DecidableEq, Inhabited

/-- The error text of the exhausted-budget exit. -/
def exhaustedMsg : String := "SSE connection lost, all idle pings exhausted"

/-- The idle-ping update shared by the connect-failure, non-2xx and
read-timeout branches: one `continue` nudge (recorded by its send time)
when budget remains and 60 s have passed, resetting the clock. -/
def pingUpdate (st : IdleSt) (now : Nat) : IdleSt × List Nat :=
  if st.pingCount < MAX_IDLE_PINGS && now - st.lastAct ≥ IDLE_TIMEOUT then
    (⟨st.pingCount + 1, now⟩, [now])
  else (st, [])

/-- The control skeleton of `subscribe_sse` over a trace of observations.
`atOuter = true` means the next check happens at the top of the
`reconnect` loop (abort poll, then the exhausted-budget exit); inside a
connection the inner loop polls abort and reads with a 5 s timeout.
Returns the ping send times, the channel events, and the exit. -/
def runBridge (st : IdleSt) (atOuter : Bool) :
    List BridgeObs → List Nat × List ChatStreamEvent × BridgeExit
  | [] => ([], [], .traceEnd)
  | o :: rest =>
      match o with
      | .abortSeen _ => ([], [], .okAborted)
      | _ =>
        if atOuter && decide (MAX_IDLE_PINGS ≤ st.pingCount) &&
            decide (IDLE_TIMEOUT ≤ o.time - st.lastAct) then
          ([], [.error exhaustedMsg], .okErrorExhausted)
        else
          match o with
          | .connectFail n =>
              let r := runBridge (pingUpdate st n).1 true rest
              ((pingUpdate st n).2 ++ r.1, r.2.1, r.2.2)
          | .connectOk _ => runBridge st false rest
          | .readTimeout n =>
              if atOuter then runBridge st atOuter rest
              else
                let r := runBridge (pingUpdate st n).1 false rest
                ((pingUpdate st n).2 ++ r.1, r.2.1, r.2.2)
          | .disconnect _ =>
              if atOuter then runBridge st atOuter rest
              else runBridge st true rest
          | .matchedFrame n =>
              if atOuter then runBridge st atOuter rest
              else runBridge ⟨0, n⟩ false rest
          | .unmatchedFrame _ => runBridge st atOuter rest
          | .terminalFrame _ =>
              if atOuter then runBridge st atOuter rest
              else ([], [.streamEnd], .okTerminal)
          | .abortSeen _ => ([], [], .okAborted)

-- ═══════════════════════════════ Theorems ═══════════════════════════════

/-- Lookup after insert in the part-length map. -/
theorem lookupLen_setLen_same (m : List (String × Nat)) (k : String) (v : Nat) :
    lookupLen (setLen m k v) k = v := by
  simp [lookupLen, setLen, List.find?]

/-- C2: in the bridge client, a text snapshot for an already-seen part at a
cumulative length not above the last-seen length produces zero `Delta`
emissions (and leaves the state untouched); a `Delta` is computed exactly
when the snapshot is strictly longer, and the emitted slice starts at the
previous length (which is below the snapshot length, so the delta is
never negative); re-delivering the same event a second time emits
nothing. -/
theorem c2_snapshot_delta (sess : String) (dedup : List String)
    (st : BridgeState) (part : SsePart) (t : String)
    (hsess : part.sessionId = sess)
    (hdedup : ∀ mid, part.messageId = some mid → dedup.contains mid = false)
    (htype : part.partType = "text") (htext : part.text = some t) :
    (t.length ≤ lookupLen st.textLengths part.id →
       handlePartUpdated sess dedup st part = (st, [])) ∧
    (lookupLen st.textLengths part.id < t.length →
       handlePartUpdated sess dedup st part =
         ({ st with textLengths := setLen st.textLengths part.id t.length },
          [.delta (t.drop (lookupLen st.textLengths part.id))]) ∧
       lookupLen st.textLengths part.id ≤ t.length) ∧
    (handlePartUpdated sess dedup (handlePartUpdated sess dedup st part).1 part).2 = [] := by
  have hbody : ∀ s : BridgeState, handlePartUpdated sess dedup s part = handlePartBody s part := by
    intro s
    unfold handlePartUpdated
    rw [hsess]
    simp only [bne_self_eq_false, Bool.false_eq_true, if_false]
    cases hm : part.messageId with
    | none => rfl
    | some mid => simp only [hdedup mid hm, Bool.false_eq_true, if_false]
  have key : ∀ s : BridgeState,
      handlePartUpdated sess dedup s part =
        if lookupLen s.textLengths part.id < t.length then
          ({ s with textLengths := setLen s.textLengths part.id t.length },
           [.delta (t.drop (lookupLen s.textLengths part.id))])
        else (s, []) := by
    intro s
    rw [hbody]
    unfold handlePartBody
    rw [htype, htext]
    rfl
  refine ⟨?_, ?_, ?_⟩
  · intro hle
    rw [key, if_neg (Nat.not_lt.mpr hle)]
  · intro hlt
    rw [key, if_pos hlt]
    exact ⟨rfl, Nat.le_of_lt hlt⟩
  · by_cases h : lookupLen st.textLengths part.id < t.length
    · rw [key st, if_pos h]
      simp only
      rw [key, if_neg ?hc]
      case hc =>
        simp only [lookupLen_setLen_same]
        exact lt_irrefl _
    · rw [key st, if_neg h]
      simp only
      rw [key st, if_neg h]

/-- Witness for C2 at a concrete re-delivered snapshot. -/
theorem c2_snapshot_delta_witness :
    ("hello".length ≤ lookupLen ([("p", 5)] : List (String × Nat)) "p") ∧
    handlePartUpdated "s" [] ⟨[("p", 5)], []⟩
        ⟨"p", "s", none, "text", some "hello", none, none, none⟩ =
      (⟨[("p", 5)], []⟩, []) :=
  ⟨by decide,
   (c2_snapshot_delta "s" [] ⟨[("p", 5)], []⟩
      ⟨"p", "s", none, "text", some "hello", none, none, none⟩ "hello"
      rfl (fun mid h => by cases h) rfl rfl).1 (by decide)⟩

/-- C3: on any non-success HTTP status, `stream_response` emits no events
and returns an error that does not depend on the body chunks (it never
begins streaming); a 401 becomes the distinguished `AUTH_EXPIRED` error,
any other non-2xx is a hard failure carrying the response body. On
`AUTH_EXPIRED` the orchestrator refreshes the credential and retries the
same request (same transcript) exactly once: a refresh failure or any
error of the retry propagates, and the request log shows the same
transcript sent twice. -/
theorem c3_auth_expired_retry :
    (∀ (jp : JsonParser) (resp : HttpResponse), isSuccessStatus resp.status = false →
       (stream_response jp resp).1 = [] ∧
       (resp.status = 401 → (stream_response jp resp).2 = .error "AUTH_EXPIRED") ∧
       (resp.status ≠ 401 → (stream_response jp resp).2 =
          .error ("Claude API error " ++ toString resp.status ++ ": " ++ resp.body)) ∧
       (∀ cs cs', stream_response jp { resp with chunks := cs } =
          stream_response jp { resp with chunks := cs' })) ∧
    (∀ (env : ChatEnv) (conv : List ChatMessage) (round : Nat),
       (stream_response env.jp (env.attempt1 round)).2 = .error "AUTH_EXPIRED" →
       (∀ re, env.refreshRetry round = .error re →
          roundFetch env round conv =
            ((stream_response env.jp (env.attempt1 round)).1, [conv], .error re)) ∧
       (∀ tok, env.refreshRetry round = .ok tok →
          roundFetch env round conv =
            ((stream_response env.jp (env.attempt1 round)).1 ++
               (stream_response env.jp (env.attempt2 round)).1,
             [conv, conv],
             (stream_response env.jp (env.attempt2 round)).2))) := by
  constructor
  · intro jp resp h
    by_cases h4 : resp.status = 401
    · have he : ∀ cs, stream_response jp { resp with chunks := cs } =
          ([], .error "AUTH_EXPIRED") := by
        intro cs
        unfold stream_response
        simp only
        rw [h4] at h ⊢
        simp [h]
      have he0 : stream_response jp resp = ([], .error "AUTH_EXPIRED") := by
        have := he resp.chunks
        simpa using this
      exact ⟨by rw [he0], fun _ => by rw [he0], fun hc => absurd h4 hc,
             fun cs cs' => by rw [he cs, he cs']⟩
    · have he : ∀ cs, stream_response jp { resp with chunks := cs } =
          ([], .error ("Claude API error " ++ toString resp.status ++ ": " ++ resp.body)) := by
        intro cs
        unfold stream_response
        simp only
        simp [h, h4]
      have he0 : stream_response jp resp =
          ([], .error ("Claude API error " ++ toString resp.status ++ ": " ++ resp.body)) := by
        have := he resp.chunks
        simpa using this
      exact ⟨by rw [he0], fun hc => absurd hc h4, fun _ => by rw [he0],
             fun cs cs' => by rw [he cs, he cs']⟩
  · intro env conv round h1
    rcases hsp : stream_response env.jp (env.attempt1 round) with ⟨evs1, res1⟩
    rw [hsp] at h1
    simp only at h1
    subst h1
    constructor
    · intro re hre
      unfold roundFetch
      rw [hsp, hre]
      simp
    · intro tok htok
      unfold roundFetch
      rw [hsp, htok]
      rcases hsp2 : stream_response env.jp (env.attempt2 round) with ⟨evs2, res2⟩
      simp

/-- Witness for C3 at a concrete 500 and a concrete expired round. -/
theorem c3_auth_expired_retry_witness :
    (isSuccessStatus 500 = false ∧
     (stream_response (fun _ => none) ⟨500, "oops", []⟩).2 =
       .error "Claude API error 500: oops") ∧
    ((stream_response (fun _ => none) ⟨401, "", []⟩).2 = .error "AUTH_EXPIRED") := by
  have h := c3_auth_expired_retry.1 (fun _ => none) ⟨500, "oops", []⟩ (by decide)
  have h4 := c3_auth_expired_retry.1 (fun _ => none) ⟨401, "", []⟩ (by decide)
  exact ⟨⟨by decide, h.2.2.1 (by decide)⟩, h4.2.1 rfl⟩

/-- C5: a `shell_exec` command whose lowercased text contains a deny-list
pattern short-circuits to an error result, identically for every possible
subprocess outcome (so no process observation is ever consulted); in
particular `rm -rf /` — in any letter case — is blocked, and the
resulting `tool_result` block built by the orchestrator round carries
exactly that error text with the error flag set. -/
theorem c5_denylist_blocks (o o2 : ToolOracle) :
    (∀ (input : Json) (p : String),
        findBlocked (lowerStr ((input.getField "command").asStr.getD "")) = some p →
        execute_tool "shell_exec" input o = (blockedMsg p, true) ∧
        execute_tool "shell_exec" input o = execute_tool "shell_exec" input o2) ∧
    (execute_tool "shell_exec" (Json.obj [("command", Json.str "rm -rf /")]) o =
        (blockedMsg "rm -rf /", true) ∧
     execute_tool "shell_exec" (Json.obj [("command", Json.str "RM -RF /")]) o =
        (blockedMsg "rm -rf /", true)) ∧
    (∀ (env : ChatEnv) (round i : Nat) (id s : String),
        env.jp s = some (Json.obj [("command", Json.str "rm -rf /")]) →
        runTools env round i [(id, "shell_exec", s)] =
          ([.toolEnd id (blockedMsg "rm -rf /")],
           [.toolResult id (blockedMsg "rm -rf /") (some true)])) := by
  have hkey : ∀ (input : Json) (p : String),
      findBlocked (lowerStr ((input.getField "command").asStr.getD "")) = some p →
      ∀ o' : ToolOracle, execute_tool "shell_exec" input o' = (blockedMsg p, true) := by
    intro input p hp o'
    simp only [execute_tool, exec_shell, hp]
  have hconc : findBlocked (lowerStr (((Json.obj [("command", Json.str "rm -rf /")]).getField
      "command").asStr.getD "")) = some "rm -rf /" := by decide
  have hconc2 : findBlocked (lowerStr (((Json.obj [("command", Json.str "RM -RF /")]).getField
      "command").asStr.getD "")) = some "rm -rf /" := by decide
  refine ⟨fun input p hp => ⟨hkey input p hp o, (hkey input p hp o).trans (hkey input p hp o2).symm⟩,
         ⟨hkey _ _ hconc o, hkey _ _ hconc2 o⟩, ?_⟩
  intro env round i id s hjp
  simp only [runTools, parseToolInput, hjp, Option.getD_some]
  rw [hkey _ _ hconc (env.toolOracle round i)]
  simp

/-- Witness for C5 with a concrete oracle and environment. -/
theorem c5_denylist_blocks_witness :
    execute_tool "shell_exec" (Json.obj [("command", Json.str "rm -rf /")])
        ⟨.completed "ok" "" (some 0) true, .ok "", none, .err ""⟩ =
      (blockedMsg "rm -rf /", true) :=
  (c5_denylist_blocks ⟨.completed "ok" "" (some 0) true, .ok "", none, .err ""⟩
      ⟨.timedOut, .ok "", none, .err ""⟩).2.1.1

/-- C6: if the cancellation flag is observed set at a chunk boundary, the
read loop stops at once; the round returns an `Ok` result tagged with stop
reason `aborted` whose tool-call list is discarded (empty), and the
orchestrator then breaks out of the loop without appending anything to the
transcript — so no `tool_result` is ever appended for the incomplete
calls — finishing with `StreamEnd` rather than an error. -/
theorem c6_abort_discards_partial_calls :
    (∀ (jp : JsonParser) (st : SseState) (c : Except String String) (rest : List ChunkEntry),
        streamLoop jp st ((true, c) :: rest) = (st, [], .aborted)) ∧
    (∀ (jp : JsonParser) (resp : HttpResponse),
        isSuccessStatus resp.status = true →
        (streamLoop jp SseState.init resp.chunks).2.2 = .aborted →
        ∃ r, (stream_response jp resp).2 = .ok r ∧
          r.stop_reason = "aborted" ∧ r.tool_uses = []) ∧
    (∀ (env : ChatEnv) (conv : List ChatMessage) (round fuel : Nat)
       (evs : List ChatStreamEvent) (sent : List (List ChatMessage)) (r : StreamedResponse),
        env.abortAt round = false →
        (round = 0 ∨ preCheck env round = .ok ()) →
        roundFetch env round conv = (evs, sent, .ok r) →
        r.stop_reason = "aborted" →
        chatLoop env (fuel + 1) round conv = ⟨evs ++ [.streamEnd], conv, none, sent⟩) := by
  refine ⟨fun jp st c rest => by simp [streamLoop], ?_, ?_⟩
  · intro jp resp h habort
    rcases hsl : streamLoop jp SseState.init resp.chunks with ⟨st, evs, status⟩
    rw [hsl] at habort
    simp only at habort
    subst habort
    exact ⟨⟨st.text_content, [], "aborted"⟩, by simp [stream_response, h, hsl], rfl, rfl⟩
  · intro env conv round fuel evs sent r hab hpc hrf hsr
    unfold chatLoop
    rw [hab]
    simp only [Bool.false_eq_true, if_false]
    have hpre : (if (round == 0) = true then Except.ok () else preCheck env round) =
        Except.ok () := by
      rcases hpc with h0 | hok
      · subst h0; rfl
      · by_cases hr : round = 0
        · subst hr; rfl
        · simp [hr, hok]
    rw [hpre, hrf]
    simp [hsr]

/-- Witness for C6 with a concrete aborted round. -/
theorem c6_abort_discards_partial_calls_witness :
    streamLoop (fun _ => none) SseState.init [(true, .ok "data")] =
      (SseState.init, [], .aborted) :=
  c6_abort_discards_partial_calls.1 (fun _ => none) SseState.init (.ok "data") []

/-- A `content_block_delta` payload carrying one tool-argument JSON
fragment, as the code reads it (`delta.type = "input_json_delta"`,
`delta.partial_json` a string). -/
def fragJson (f : String) : Json :=
  Json.obj [("delta", Json.obj [("type", Json.str "input_json_delta"),
                                ("partial_json", Json.str f)])]

/-- Feeding a list of `data:` payloads of one event type to the dispatch
loop in order. -/
def feedEvents (jp : JsonParser) (st : SseState) (eventType : String) :
    List String → SseState × List ChatStreamEvent
  | [] => (st, [])
  | d :: ds =>
      let (st1, e1) := handleEvent jp st eventType d
      let (st2, e2) := feedEvents jp st1 eventType ds
      (st2, e1 ++ e2)

/-- Left factor distributes over the string-concatenation fold. -/
theorem foldl_strAppend (fs : List String) : ∀ a b : String,
    List.foldl (fun r s => r ++ s) (a ++ b) fs =
      a ++ List.foldl (fun r s => r ++ s) b fs := by
  induction fs with
  | nil => intro a b; rfl
  | cons c cs ih =>
      intro a b
      simp only [List.foldl_cons]
      rw [String.append_assoc, ih]

/-- One argument-fragment delta only appends the fragment to the buffer. -/
theorem handleEvent_frag (jp : JsonParser) (st : SseState) (d f : String)
    (h : jp d = some (fragJson f)) :
    handleEvent jp st "content_block_delta" d =
      ({ st with current_tool_input_json := st.current_tool_input_json ++ f }, []) := by
  unfold handleEvent
  rw [h]
  rfl

/-- C8: tool-argument JSON fragments split across any number of deltas are
concatenated into the call buffer, emitting nothing — so the buffered
string (and hence its parse) depends only on the concatenation, not on
the fragmentation; `content_block_stop` finalizes the buffer into the
tool-call list; a malformed buffer parses to the empty JSON object
(`unwrap_or(json!({}))`), never failing the round. -/
theorem c8_fragment_reassembly :
    (∀ (jp : JsonParser) (st : SseState) (ds fs : List String),
        List.Forall₂ (fun d f => jp d = some (fragJson f)) ds fs →
        feedEvents jp st "content_block_delta" ds =
          ({ st with current_tool_input_json :=
               st.current_tool_input_json ++ String.join fs }, [])) ∧
    (∀ (jp : JsonParser) (st : SseState) (ds fs ds' fs' : List String),
        List.Forall₂ (fun d f => jp d = some (fragJson f)) ds fs →
        List.Forall₂ (fun d f => jp d = some (fragJson f)) ds' fs' →
        String.join fs = String.join fs' →
        feedEvents jp st "content_block_delta" ds =
          feedEvents jp st "content_block_delta" ds') ∧
    (∀ (jp : JsonParser) (st : SseState) (d : String),
        st.current_block_type = "tool_use" →
        handleEvent jp st "content_block_stop" d =
          ({ st with
               tool_uses := st.tool_uses ++
                 [(st.current_tool_id, st.current_tool_name, st.current_tool_input_json)],
               current_block_type := "" }, [])) ∧
    (∀ (jp : JsonParser) (s : String), jp s = none → parseToolInput jp s = Json.obj []) ∧
    (∀ (jp : JsonParser) (s : String) (v : Json), jp s = some v → parseToolInput jp s = v) := by
  have hfeed : ∀ (jp : JsonParser) (ds fs : List String),
      List.Forall₂ (fun d f => jp d = some (fragJson f)) ds fs →
      ∀ st : SseState,
      feedEvents jp st "content_block_delta" ds =
        ({ st with current_tool_input_json :=
             st.current_tool_input_json ++ String.join fs }, []) := by
    intro jp ds fs h
    induction h with
    | nil =>
        intro st
        show (st, []) = _
        simp [String.join]
    | cons hd htail ih =>
        intro st
        rename_i d f ds' fs'
        show feedEvents jp st "content_block_delta" (d :: ds') = _
        unfold feedEvents
        rw [handleEvent_frag jp st d f hd]
        simp only
        rw [ih]
        have hj : List.foldl (fun r s => r ++ s) ("" ++ f) fs' =
            f ++ List.foldl (fun r s => r ++ s) "" fs' := by
          rw [String.empty_append]
          have := foldl_strAppend fs' f ""
          rwa [String.append_empty] at this
        simp only [String.join, List.foldl_cons, hj, List.append_nil,
          List.nil_append, Prod.mk.injEq, and_true]
        rw [String.append_assoc]
  refine ⟨fun jp st ds fs h => hfeed jp ds fs h st, ?_, ?_, ?_, ?_⟩
  · intro jp st ds fs ds' fs' h h' hjoin
    rw [hfeed jp ds fs h st, hfeed jp ds' fs' h' st, hjoin]
  · intro jp st d h
    unfold handleEvent
    simp [h]
  · intro jp s h
    simp [parseToolInput, h]
  · intro jp s v h
    simp [parseToolInput, h]

/-- Witness for C8: two concrete fragments reassemble to their
concatenation. -/
theorem c8_fragment_reassembly_witness :
    feedEvents
        (fun s => if s = "d1" then some (fragJson "ab")
                  else if s = "d2" then some (fragJson "cd") else none)
        SseState.init "content_block_delta" ["d1", "d2"] =
      ({ SseState.init with current_tool_input_json :=
           SseState.init.current_tool_input_json ++ String.join ["ab", "cd"] }, []) :=
  c8_fragment_reassembly.1 _ SseState.init ["d1", "d2"] ["ab", "cd"]
    (List.Forall₂.cons rfl (List.Forall₂.cons rfl List.Forall₂.nil))

/-- A string of `n` copies of one character occupies `n` times its
encoding size in bytes. -/
theorem byteLenL_replicate (c : Char) : ∀ n, byteLenL (List.replicate n c) = n * charBytes c := by
  intro n
  induction n with
  | zero => simp [byteLenL]
  | succ n ih =>
      rw [List.replicate_succ]
      show charBytes c + byteLenL (List.replicate n c) = (n + 1) * charBytes c
      rw [ih, Nat.succ_mul]
      omega

/-- Cutting a run of one repeated character at a byte index that is not a
multiple of the encoding size lands inside a character: no boundary. -/
theorem takeBytes_replicate_none (c : Char) :
    ∀ (n m : Nat), m % charBytes c ≠ 0 → m < n * charBytes c →
      takeBytes (List.replicate n c) m = none := by
  intro n
  induction n with
  | zero => intro m hm hlt; simp at hlt
  | succ n ih =>
      intro m hm hlt
      cases m with
      | zero => exact absurd (Nat.zero_mod _) hm
      | succ m =>
          rw [List.replicate_succ]
          show takeBytes (c :: List.replicate n c) (m + 1) = none
          unfold takeBytes
          split
          · rename_i hle
            have hmod : (m + 1 - charBytes c) % charBytes c ≠ 0 := by
              intro h0
              apply hm
              have hsum : m + 1 - charBytes c + charBytes c = m + 1 :=
                Nat.sub_add_cancel hle
              calc (m + 1) % charBytes c
                  = (m + 1 - charBytes c + charBytes c) % charBytes c := by rw [hsum]
                _ = (m + 1 - charBytes c) % charBytes c := Nat.add_mod_right _ _
                _ = 0 := h0
            have hlt2 : m + 1 - charBytes c < n * charBytes c := by
              rw [Nat.succ_mul] at hlt
              omega
            rw [ih _ hmod hlt2]
            rfl
          · rfl

/-- C4 is refuted by the source: `execute_tool` can panic. On the
oversized-output path `exec_shell` runs `result.truncate(MAX_OUTPUT)`
with a BYTE index (lib.rs:230, tools.rs:119), and Rust `String::truncate`
panics when that index is not a UTF-8 char boundary. An output of 174763
copies of the three-byte character 가 is 524289 bytes, exceeding the
512 KiB cap, and byte 524288 falls inside its 174763rd character — so
the truncation path is reached and the boundary assert fires, instead of
every failure being encoded in the returned (output, is_error) pair. -/
theorem c4_truncate_panics :
    MAX_OUTPUT < byteLen (String.mk (List.replicate 174763 '가')) ∧
    capOutputBytes (String.mk (List.replicate 174763 '가')) = none := by
  have hcb : charBytes '가' = 3 := by decide
  have hlen : byteLen (String.mk (List.replicate 174763 '가')) = 524289 := by
    show byteLenL (List.replicate 174763 '가') = 524289
    rw [byteLenL_replicate, hcb]
  have hgt : MAX_OUTPUT < byteLen (String.mk (List.replicate 174763 '가')) := by
    rw [hlen]; decide
  refine ⟨hgt, ?_⟩
  have htb : truncateBytes (String.mk (List.replicate 174763 '가')) MAX_OUTPUT = none := by
    unfold truncateBytes
    rw [if_neg (by rw [hlen]; decide)]
    show (takeBytes (List.replicate 174763 '가') MAX_OUTPUT).map String.mk = none
    rw [takeBytes_replicate_none '가' 174763 MAX_OUTPUT (by rw [hcb]; decide)
        (by rw [hcb]; decide)]
    rfl
  unfold capOutputBytes
  rw [if_pos hgt, htb]
  rfl

/-- Every `runBridge` run emits either no events, exactly the exhausted
terminal `Error`, or exactly the terminal `StreamEnd` — the only event
sites of the idle/reconnect skeleton are its exits. -/
theorem runBridge_events_cases (trace : List BridgeObs) :
    ∀ (st : IdleSt) (b : Bool),
      (runBridge st b trace).2.1 = [] ∨
      ((runBridge st b trace).2.1 = [.error exhaustedMsg] ∧
       (runBridge st b trace).2.2 = .okErrorExhausted) ∨
      ((runBridge st b trace).2.1 = [.streamEnd] ∧
       (runBridge st b trace).2.2 = .okTerminal) := by
  induction trace with
  | nil => intro st b; simp [runBridge]
  | cons o rest ih =>
      intro st b
      cases o with
      | abortSeen n => simp [runBridge]
      | connectFail n =>
          simp only [runBridge]
          split
          · simp
          · simpa using ih _ _
      | connectOk n =>
          simp only [runBridge]
          split
          · simp
          · exact ih _ _
      | readTimeout n =>
          simp only [runBridge]
          split
          · simp
          · split
            · exact ih _ _
            · simpa using ih _ _
      | disconnect n =>
          simp only [runBridge]
          split
          · simp
          · split
            · exact ih _ _
            · exact ih _ _
      | matchedFrame n =>
          simp only [runBridge]
          split
          · simp
          · split
            · exact ih _ _
            · exact ih _ _
      | unmatchedFrame n =>
          simp only [runBridge]
          split
          · simp
          · exact ih _ _
      | terminalFrame n =>
          simp only [runBridge]
          split
          · simp
          · split
            · exact ih _ _
            · simp

/-- C7: in the bridge client, a read timeout observed with keep-alive
budget remaining and 60 s of silence sends exactly one `continue` nudge
and resets the idle clock (further timeouts inside the new window, or with
the budget exhausted, send none); at a reconnect entry with all 3 pings
spent and continued silence the client emits a terminal `Error` and
returns — and an `Error` is emitted only on that exhausted-budget exit. -/
theorem c7_idle_keepalive :
    (∀ (st : IdleSt) (n : Nat) (rest : List BridgeObs),
        st.pingCount < MAX_IDLE_PINGS → IDLE_TIMEOUT ≤ n - st.lastAct →
        runBridge st false (.readTimeout n :: rest) =
          (n :: (runBridge ⟨st.pingCount + 1, n⟩ false rest).1,
           (runBridge ⟨st.pingCount + 1, n⟩ false rest).2.1,
           (runBridge ⟨st.pingCount + 1, n⟩ false rest).2.2)) ∧
    (∀ (st : IdleSt) (n : Nat) (rest : List BridgeObs), n - st.lastAct < IDLE_TIMEOUT →
        runBridge st false (.readTimeout n :: rest) = runBridge st false rest) ∧
    (∀ (st : IdleSt) (n : Nat) (rest : List BridgeObs), MAX_IDLE_PINGS ≤ st.pingCount →
        runBridge st false (.readTimeout n :: rest) = runBridge st false rest) ∧
    (∀ (st : IdleSt) (o : BridgeObs) (rest : List BridgeObs),
        (∀ m, o ≠ .abortSeen m) → MAX_IDLE_PINGS ≤ st.pingCount →
        IDLE_TIMEOUT ≤ o.time - st.lastAct →
        runBridge st true (o :: rest) = ([], [.error exhaustedMsg], .okErrorExhausted)) ∧
    (∀ (st : IdleSt) (b : Bool) (trace : List BridgeObs) (m : String),
        .error m ∈ (runBridge st b trace).2.1 →
        (runBridge st b trace).2.2 = .okErrorExhausted ∧
        (runBridge st b trace).2.1 = [.error exhaustedMsg]) := by
  refine ⟨?_, ?_, ?_, ?_, ?_⟩
  · intro st n rest h1 h2
    simp [runBridge, pingUpdate, h1, h2]
  · intro st n rest h
    simp [runBridge, pingUpdate, Nat.not_le.mpr h]
  · intro st n rest h
    simp [runBridge, pingUpdate, Nat.not_lt.mpr h]
  · intro st o rest habort h1 h2
    cases o with
    | abortSeen m => exact absurd rfl (habort m)
    | connectFail n => simp [runBridge, BridgeObs.time] at h2 ⊢; simp [h1, h2]
    | connectOk n => simp [runBridge, BridgeObs.time] at h2 ⊢; simp [h1, h2]
    | readTimeout n => simp [runBridge, BridgeObs.time] at h2 ⊢; simp [h1, h2]
    | disconnect n => simp [runBridge, BridgeObs.time] at h2 ⊢; simp [h1, h2]
    | matchedFrame n => simp [runBridge, BridgeObs.time] at h2 ⊢; simp [h1, h2]
    | unmatchedFrame n => simp [runBridge, BridgeObs.time] at h2 ⊢; simp [h1, h2]
    | terminalFrame n => simp [runBridge, BridgeObs.time] at h2 ⊢; simp [h1, h2]
  · intro st b trace m hm
    rcases runBridge_events_cases trace st b with h | ⟨h1, h2⟩ | ⟨h1, h2⟩
    · rw [h] at hm; cases hm
    · exact ⟨h2, h1⟩
    · rw [h1] at hm; simp at hm

/-- Events that start the tool call with id `c`. -/
def isToolStartFor (c : String) : ChatStreamEvent → Bool
  | .toolStart _ id => id == c
  | _ => false

/-- Number of `ToolStart` events for call id `c` in a list. -/
def toolStartCount (c : String) (evs : List ChatStreamEvent) : Nat :=
  (evs.filter (isToolStartFor c)).length

/-- The count distributes over concatenation. -/
theorem toolStartCount_append (c : String) (a b : List ChatStreamEvent) :
    toolStartCount c (a ++ b) = toolStartCount c a + toolStartCount c b := by
  simp [toolStartCount, List.filter_append]

/-- The delegation `Status` events contain no `ToolStart`. -/
theorem toolStartCount_delegation (c toolName inputJson : String) :
    toolStartCount c (delegationStatusEvents toolName inputJson) = 0 := by
  simp only [delegationStatusEvents]
  split
  · simp [toolStartCount, isToolStartFor]
  · split
    · simp [toolStartCount, isToolStartFor]
    · simp [toolStartCount, isToolStartFor]

/-- One `"tool"`-part update either leaves the started set unchanged and
emits no `ToolStart`, or marks exactly the call id of the part as started —
necessarily fresh — and emits exactly one `ToolStart`, for that id. -/
theorem handleToolPart_start_step (st : BridgeState) (callId toolName : String)
    (stateJson : Json) :
    ((handleToolPart st callId toolName stateJson).1.toolStarted = st.toolStarted ∧
     ∀ c, toolStartCount c (handleToolPart st callId toolName stateJson).2 = 0) ∨
    (callId ∉ st.toolStarted ∧
     (handleToolPart st callId toolName stateJson).1.toolStarted = callId :: st.toolStarted ∧
     ∀ c, toolStartCount c (handleToolPart st callId toolName stateJson).2 =
        if callId = c then 1 else 0) := by
  unfold handleToolPart
  split
  · -- "running"
    split
    · exact Or.inl ⟨rfl, fun c => rfl⟩
    · rename_i hvac
      refine Or.inr ⟨hvac, rfl, fun c => ?_⟩
      rw [toolStartCount_append, toolStartCount_delegation]
      simp only [toolStartCount, List.filter, isToolStartFor, Nat.zero_add]
      by_cases hc : callId = c
      · subst hc; simp
      · have hb : (callId == c) = false := by simp [hc]
        simp [hb, hc]
  · -- "completed"
    split
    · exact Or.inl ⟨rfl, fun c => rfl⟩
    · rename_i hvac
      refine Or.inr ⟨hvac, rfl, fun c => ?_⟩
      simp only [toolStartCount, List.filter, isToolStartFor]
      by_cases hc : callId = c
      · subst hc; simp
      · have hb : (callId == c) = false := by simp [hc]
        simp [hb, hc]
  · -- "error"
    exact Or.inl ⟨rfl, fun c => rfl⟩
  · exact Or.inl ⟨rfl, fun c => rfl⟩

/-- Lifting of `handleToolPart_start_step` to a whole
`message.part.updated` delivery (all other part types leave the started
set alone and emit no `ToolStart`). -/
theorem handlePart_start_step (sess : String) (dedup : List String)
    (st : BridgeState) (part : SsePart) :
    ((handlePartUpdated sess dedup st part).1.toolStarted = st.toolStarted ∧
     ∀ c, toolStartCount c (handlePartUpdated sess dedup st part).2 = 0) ∨
    (∃ callId, callId ∉ st.toolStarted ∧
       (handlePartUpdated sess dedup st part).1.toolStarted = callId :: st.toolStarted ∧
       ∀ c, toolStartCount c (handlePartUpdated sess dedup st part).2 =
          if callId = c then 1 else 0) := by
  have hbody : ∀ s : BridgeState,
      ((handlePartBody s part).1.toolStarted = s.toolStarted ∧
       ∀ c, toolStartCount c (handlePartBody s part).2 = 0) ∨
      (∃ callId, callId ∉ s.toolStarted ∧
         (handlePartBody s part).1.toolStarted = callId :: s.toolStarted ∧
         ∀ c, toolStartCount c (handlePartBody s part).2 = if callId = c then 1 else 0) := by
    intro s
    unfold handlePartBody
    split
    · -- "text"
      split
      · dsimp only
        split
        · exact Or.inl ⟨rfl, fun c => rfl⟩
        · exact Or.inl ⟨rfl, fun c => rfl⟩
      · exact Or.inl ⟨rfl, fun c => rfl⟩
    · -- "tool"
      split
      · rcases handleToolPart_start_step s (part.callId.getD "") (part.tool.getD "unknown")
            (by assumption) with h | ⟨hvac, hset, hcnt⟩
        · exact Or.inl h
        · exact Or.inr ⟨part.callId.getD "", hvac, hset, hcnt⟩
      · exact Or.inl ⟨rfl, fun c => rfl⟩
    · -- "step-start"
      exact Or.inl ⟨rfl, fun c => rfl⟩
    · -- "reasoning"
      split
      · dsimp only
        split
        · exact Or.inl ⟨rfl, fun c => rfl⟩
        · exact Or.inl ⟨rfl, fun c => rfl⟩
      · exact Or.inl ⟨rfl, fun c => rfl⟩
    · exact Or.inl ⟨rfl, fun c => rfl⟩
  unfold handlePartUpdated
  split
  · exact Or.inl ⟨rfl, fun c => rfl⟩
  · split
    · split
      · exact Or.inl ⟨rfl, fun c => rfl⟩
      · exact hbody st
    · exact hbody st

/-- The started-set/`ToolStart` invariant over any delivery sequence: a
fresh id is started at most once (exactly once when it ends up in the
set), and an id already started is never started again. -/
theorem runParts_start_inv (sess : String) (dedup : List String) (ps : List SsePart) :
    ∀ (st : BridgeState) (c : String),
      (c ∉ st.toolStarted →
         toolStartCount c (runParts sess dedup st ps).2 =
           (if c ∈ (runParts sess dedup st ps).1.toolStarted then 1 else 0)) ∧
      (c ∈ st.toolStarted →
         toolStartCount c (runParts sess dedup st ps).2 = 0 ∧
         c ∈ (runParts sess dedup st ps).1.toolStarted) := by
  induction ps with
  | nil =>
      intro st c
      refine ⟨fun h => ?_, fun h => ⟨rfl, by simpa [runParts] using h⟩⟩
      simp [runParts, toolStartCount, h]
  | cons p ps ih =>
      intro st c
      have hrw : runParts sess dedup st (p :: ps) =
          ((runParts sess dedup (handlePartUpdated sess dedup st p).1 ps).1,
           (handlePartUpdated sess dedup st p).2 ++
             (runParts sess dedup (handlePartUpdated sess dedup st p).1 ps).2) := rfl
      rw [hrw]
      simp only [toolStartCount_append]
      rcases handlePart_start_step sess dedup st p with ⟨hset, hcnt⟩ |
        ⟨callId, hvac, hset, hcnt⟩
      · constructor
        · intro h
          have h1 : c ∉ (handlePartUpdated sess dedup st p).1.toolStarted := by
            rw [hset]; exact h
          rw [hcnt c, (ih _ c).1 h1, Nat.zero_add]
        · intro h
          have h1 : c ∈ (handlePartUpdated sess dedup st p).1.toolStarted := by
            rw [hset]; exact h
          rcases (ih _ c).2 h1 with ⟨hz, hm⟩
          exact ⟨by rw [hcnt c, hz], hm⟩
      · constructor
        · intro h
          by_cases hc : callId = c
          · subst hc
            have h1 : callId ∈ (handlePartUpdated sess dedup st p).1.toolStarted := by
              rw [hset]; exact List.mem_cons_self _ _
            rcases (ih _ callId).2 h1 with ⟨hz, hm⟩
            rw [hcnt callId, if_pos rfl, hz, if_pos hm]
          · have h1 : c ∉ (handlePartUpdated sess dedup st p).1.toolStarted := by
              rw [hset]
              intro hmem
              rcases List.mem_cons.mp hmem with he | hin
              · exact hc he.symm
              · exact h hin
            rw [hcnt c, if_neg hc, (ih _ c).1 h1, Nat.zero_add]
        · intro h
          have hc : callId ≠ c := fun he => hvac (he ▸ h)
          have h1 : c ∈ (handlePartUpdated sess dedup st p).1.toolStarted := by
            rw [hset]; exact List.mem_cons_of_mem _ h
          rcases (ih _ c).2 h1 with ⟨hz, hm⟩
          exact ⟨by rw [hcnt c, if_neg hc, hz], hm⟩

/-- `runParts` over an appended suffix. -/
theorem runParts_append (sess : String) (dedup : List String) (ps qs : List SsePart) :
    ∀ st : BridgeState,
      runParts sess dedup st (ps ++ qs) =
        ((runParts sess dedup (runParts sess dedup st ps).1 qs).1,
         (runParts sess dedup st ps).2 ++
           (runParts sess dedup (runParts sess dedup st ps).1 qs).2) := by
  induction ps with
  | nil => intro st; simp [runParts]
  | cons p ps ih =>
      intro st
      show runParts sess dedup st (p :: (ps ++ qs)) = _
      have hrw : ∀ rs, runParts sess dedup st (p :: rs) =
          ((runParts sess dedup (handlePartUpdated sess dedup st p).1 rs).1,
           (handlePartUpdated sess dedup st p).2 ++
             (runParts sess dedup (handlePartUpdated sess dedup st p).1 rs).2) :=
        fun rs => rfl
      rw [hrw, hrw, ih, List.append_assoc]

/-- A positive start count exhibits a `ToolStart` event for the id. -/
theorem exists_toolStart_of_count_pos (c : String) (evs : List ChatStreamEvent)
    (h : 0 < toolStartCount c evs) :
    ∃ nm, ChatStreamEvent.toolStart nm c ∈ evs := by
  unfold toolStartCount at h
  rcases hfil : List.filter (isToolStartFor c) evs with _ | ⟨e, rest⟩
  · rw [hfil] at h; simp at h
  · have hmem : e ∈ List.filter (isToolStartFor c) evs := by
      rw [hfil]; exact List.mem_cons_self _ _
    rcases List.mem_filter.mp hmem with ⟨hin, hpred⟩
    cases e <;> simp only [isToolStartFor, Bool.false_eq_true] at hpred
    rename_i nm id
    rw [beq_iff_eq] at hpred
    exact ⟨nm, hpred ▸ hin⟩

/-- The call ids of the `tool_use` blocks of a block list, in order. -/
def useIds (bs : List ContentBlock) : List String :=
  bs.filterMap fun b =>
    match b with
    | .toolUse id _ _ => some id
    | _ => none

/-- The call ids of the `tool_result` blocks of a block list, in order. -/
def resultIds (bs : List ContentBlock) : List String :=
  bs.filterMap fun b =>
    match b with
    | .toolResult id _ _ => some id
    | _ => none

/-- The blocks of a message (a plain-string message has none). -/
def msgBlocks (m : ChatMessage) : List ContentBlock :=
  match m.content with
  | .blocks bs => bs
  | .str _ => []

/-- Does this message leave tool calls awaiting results: an assistant
message containing at least one `tool_use` block? -/
def pendingTools (m : ChatMessage) : Bool :=
  m.role == "assistant" && !(useIds (msgBlocks m)).isEmpty

/-- The transcript pairing invariant: every assistant message carrying
`tool_use` blocks is immediately followed by a user message whose
`tool_result` ids equal — in order and multiplicity — its `tool_use` ids
(so each `tool_use` block has exactly one matching `tool_result` before
the next assistant turn), and the transcript does not end on pending tool
calls. -/
def toolPairedB : List ChatMessage → Bool
  | [] => true
  | [m] => !pendingTools m
  | m :: u :: rest =>
      (if pendingTools m then
         u.role == "user" && (resultIds (msgBlocks u) == useIds (msgBlocks m))
       else true)
      && toolPairedB (u :: rest)

/-- A fresh assistant/user pair satisfying the id equation is paired. -/
theorem toolPairedB_pair (a u : ChatMessage)
    (hu : u.role = "user")
    (hru : resultIds (msgBlocks u) = useIds (msgBlocks a)) :
    toolPairedB [a, u] = true := by
  have hpu : pendingTools u = false := by
    simp [pendingTools, hu]
  show ((if pendingTools a then
          u.role == "user" && (resultIds (msgBlocks u) == useIds (msgBlocks a))
        else true) && toolPairedB [u]) = true
  have h1 : toolPairedB [u] = true := by
    show (!pendingTools u) = true
    rw [hpu]
    rfl
  rw [h1, Bool.and_true]
  split
  · rw [hu, hru]
    simp
  · rfl

/-- Appending a properly paired assistant/user pair preserves the
invariant. -/
theorem toolPairedB_append_pair :
    ∀ (conv : List ChatMessage) (a u : ChatMessage),
      toolPairedB conv = true → u.role = "user" →
      resultIds (msgBlocks u) = useIds (msgBlocks a) →
      toolPairedB (conv ++ [a, u]) = true := by
  intro conv
  induction conv with
  | nil => intro a u _ hu hru; exact toolPairedB_pair a u hu hru
  | cons m rest ih =>
      intro a u h hu hru
      cases rest with
      | nil =>
          have hm : pendingTools m = false := by
            have : (!pendingTools m) = true := h
            simpa using this
          show toolPairedB (m :: [a, u]) = true
          have : toolPairedB (m :: [a, u]) =
              ((if pendingTools m then
                  a.role == "user" && (resultIds (msgBlocks a) == useIds (msgBlocks m))
                else true) && toolPairedB [a, u]) := rfl
          rw [this, hm]
          simp [toolPairedB_pair a u hu hru]
      | cons u2 rest2 =>
          have hdef : toolPairedB (m :: u2 :: rest2) =
              ((if pendingTools m then
                  u2.role == "user" && (resultIds (msgBlocks u2) == useIds (msgBlocks m))
                else true) && toolPairedB (u2 :: rest2)) := rfl
          rw [hdef] at h
          simp only [Bool.and_eq_true] at h
          obtain ⟨hx, hy⟩ := h
          show toolPairedB (m :: u2 :: (rest2 ++ [a, u])) = true
          have hdef2 : toolPairedB (m :: u2 :: (rest2 ++ [a, u])) =
              ((if pendingTools m then
                  u2.role == "user" && (resultIds (msgBlocks u2) == useIds (msgBlocks m))
                else true) && toolPairedB (u2 :: (rest2 ++ [a, u]))) := rfl
          rw [hdef2]
          simp only [Bool.and_eq_true]
          exact ⟨hx, ih a u hy hu hru⟩

/-- The `tool_use` ids of the appended assistant message are exactly the
buffered call ids, in order. -/
theorem useIds_assistantBlocks (jp : JsonParser) (r : StreamedResponse) :
    useIds (assistantBlocks jp r) = r.tool_uses.map (fun u => u.1) := by
  unfold assistantBlocks useIds
  rw [List.filterMap_append]
  have h1 : (if r.text_content.isEmpty then ([] : List ContentBlock)
      else [ContentBlock.text r.text_content]).filterMap
        (fun b => match b with | .toolUse id _ _ => some id | _ => none) = [] := by
    split <;> rfl
  rw [h1, List.nil_append]
  induction r.tool_uses with
  | nil => rfl
  | cons u rest ih => simpa [List.filterMap_cons] using ih

/-- The `tool_result` blocks built by the tool loop carry exactly the
buffered call ids, in order, and contain no `tool_use` block. -/
theorem runTools_ids (env : ChatEnv) (round : Nat) :
    ∀ (uses : List (String × String × String)) (i : Nat),
      resultIds (runTools env round i uses).2 = uses.map (fun u => u.1) ∧
      useIds (runTools env round i uses).2 = [] := by
  intro uses
  induction uses with
  | nil => intro i; exact ⟨rfl, rfl⟩
  | cons u rest ih =>
      intro i
      obtain ⟨ih1, ih2⟩ := ih (i + 1)
      constructor
      · show resultIds (ContentBlock.toolResult _ _ _ :: (runTools env round (i + 1) rest).2) = _
        simpa [resultIds, List.filterMap_cons] using ih1
      · show useIds (ContentBlock.toolResult _ _ _ :: (runTools env round (i + 1) rest).2) = _
        simpa [useIds, List.filterMap_cons] using ih2

/-- Every request of a round is built from the current transcript. -/
theorem roundFetch_sent (env : ChatEnv) (round : Nat) (conv : List ChatMessage) :
    (roundFetch env round conv).2.1 = [conv] ∨
    (roundFetch env round conv).2.1 = [conv, conv] := by
  unfold roundFetch
  dsimp only
  rcases h1 : (stream_response env.jp (env.attempt1 round)).2 with e | r
  · by_cases he : e = "AUTH_EXPIRED"
    · subst he
      simp only [beq_self_eq_true, if_true]
      rcases h2 : env.refreshRetry round with re | tok <;> simp
    · have hb : (e == "AUTH_EXPIRED") = false := by simp [he]
      simp [hb]
  · simp

/-- C1: the round loop of `chat_send` preserves the pairing invariant: if
the starting transcript (and any compacted replacement) is paired, then
the final transcript — and every transcript a request is built from,
i.e. the state at each round boundary — is paired: every `tool_use` block
it appends in an assistant message is immediately followed by a single
user message holding exactly one `tool_result` per call id, before the
next round is sent. -/
theorem c1_tool_use_result_pairing (env : ChatEnv) (msgs : List ChatMessage)
    (h0 : toolPairedB msgs = true)
    (hc : ∀ c, env.compressResult = some c → toolPairedB c = true) :
    toolPairedB (chat_send env msgs).conv = true ∧
    (∀ s ∈ (chat_send env msgs).sent, toolPairedB s = true) := by
  have hloop : ∀ (fuel round : Nat) (conv : List ChatMessage), toolPairedB conv = true →
      toolPairedB (chatLoop env fuel round conv).conv = true ∧
      ∀ s ∈ (chatLoop env fuel round conv).sent, toolPairedB s = true := by
    intro fuel
    induction fuel with
    | zero =>
        intro round conv h
        exact ⟨h, fun s hs => by simp [chatLoop] at hs⟩
    | succ fuel ih =>
        intro round conv h
        unfold chatLoop
        split
        · exact ⟨h, fun s hs => by simp at hs⟩
        · split
          · exact ⟨h, fun s hs => by simp at hs⟩
          · rcases hrf : roundFetch env round conv with ⟨evs, sent, res⟩
            have hsent : ∀ s ∈ sent, s = conv := by
              intro s hs
              rcases roundFetch_sent env round conv with hcase | hcase <;>
                  rw [hrf] at hcase <;> simp only at hcase <;> subst hcase
              · simpa using hs
              · rcases List.mem_cons.mp hs with hmc | hmc
                · exact hmc
                · simpa using hmc
            cases res with
            | error e =>
                exact ⟨h, fun s hs => (hsent s hs) ▸ h⟩
            | ok r =>
                simp only
                split
                · exact ⟨h, fun s hs => (hsent s hs) ▸ h⟩
                · split
                  · -- tool_use branch
                    have hpair : toolPairedB
                        ((conv ++ [⟨"assistant", .blocks (assistantBlocks env.jp r)⟩]) ++
                          [⟨"user", .blocks (runTools env round 0 r.tool_uses).2⟩]) = true := by
                      rw [List.append_assoc]
                      refine toolPairedB_append_pair conv _ _ h rfl ?_
                      show resultIds (runTools env round 0 r.tool_uses).2 =
                        useIds (assistantBlocks env.jp r)
                      rw [(runTools_ids env round r.tool_uses 0).1,
                        useIds_assistantBlocks]
                    obtain ⟨h1, h2⟩ := ih (round + 1) _ hpair
                    refine ⟨h1, fun s hs => ?_⟩
                    rcases List.mem_append.mp hs with hs | hs
                    · exact (hsent s hs) ▸ h
                    · exact h2 s hs
                  · exact ⟨h, fun s hs => (hsent s hs) ▸ h⟩
  have hcs : (compressStep env msgs).2 = msgs ∨
      ∃ c, env.compressResult = some c ∧ (compressStep env msgs).2 = c := by
    unfold compressStep
    split
    · rcases hcomp : env.compressResult with _ | c
      · exact Or.inl rfl
      · exact Or.inr ⟨c, rfl, rfl⟩
    · exact Or.inl rfl
  unfold chat_send
  rcases env.getTok0 with e | tok
  · exact ⟨h0, fun s hs => by simp at hs⟩
  · simp only
    rcases hcs with h2 | ⟨c, hsome, h2⟩
    · rw [h2]
      exact hloop MAX_TOOL_ROUNDS 0 msgs h0
    · rw [h2]
      exact hloop MAX_TOOL_ROUNDS 0 c (hc c hsome)

/-- A minimal concrete environment for the C1 witness: the provider
stream ends at once, so the loop terminates with the transcript
unchanged. -/
def c1Env : ChatEnv where
  jp := fun _ => none
  getTok0 := .ok "tok"
  tokCheck := fun _ => .ok "tok"
  refreshPre := fun _ => .ok "tok"
  refreshRetry := fun _ => .ok "tok"
  attempt1 := fun _ => ⟨200, "", []⟩
  attempt2 := fun _ => ⟨200, "", []⟩
  abortAt := fun _ => false
  ollamaEnabled := false
  compressResult := none
  summarize := fun _ => none
  toolOracle := fun _ _ => ⟨.timedOut, .ok "", none, .err ""⟩

/-- Witness for C1 at a concrete environment and empty transcript. -/
theorem c1_tool_use_result_pairing_witness :
    toolPairedB (chat_send c1Env []).conv = true ∧
    (∀ s ∈ (chat_send c1Env []).sent, toolPairedB s = true) :=
  c1_tool_use_result_pairing c1Env [] (by decide)
    (fun c h => by simp [c1Env] at h)

-- ── C9: terminating events of a conversation call ──────────────────────

/-- A terminating event in the sense of the spec: `StreamEnd` or `Error`. -/
def isTerminator : ChatStreamEvent → Bool
  | .streamEnd => true
  | .error _ => true
  | _ => false

/-- Modelled from the spec: "terminated by exactly one `StreamEnd` or
`Error` per conversation call" — the sequence holds exactly one
terminating event, and it is the final event. -/
def terminatedByExactlyOne (evs : List ChatStreamEvent) : Bool :=
  ((evs.filter isTerminator).length == 1) &&
    ((evs.getLast?.map isTerminator).getD false)

/-- The SSE dispatch never emits `StreamEnd` (it is sent only by the
orchestrator after the loop). -/
theorem handleEvent_no_streamEnd (jp : JsonParser) (st : SseState) (et d : String) :
    ChatStreamEvent.streamEnd ∉ (handleEvent jp st et d).2 := by
  unfold handleEvent
  repeat' split
  all_goals try simp
  all_goals split
  all_goals try simp
  all_goals split
  all_goals simp

/-- Neither does a whole frame. -/
theorem handleFrame_no_streamEnd (jp : JsonParser) (st : SseState) (b : String) :
    ChatStreamEvent.streamEnd ∉ (handleFrame jp st b).2 := by
  unfold handleFrame
  rcases h : parseFrame b with ⟨et, d⟩
  exact handleEvent_no_streamEnd jp st et d

/-- Nor a frame list. -/
theorem handleFrames_no_streamEnd (jp : JsonParser) :
    ∀ (bs : List String) (st : SseState),
      ChatStreamEvent.streamEnd ∉ (handleFrames jp st bs).2 := by
  intro bs
  induction bs with
  | nil => intro st; simp [handleFrames]
  | cons b bs ih =>
      intro st hmem
      rcases List.mem_append.mp hmem with h | h
      · exact handleFrame_no_streamEnd jp st b h
      · exact ih _ h

/-- Nor a chunk. -/
theorem processChunk_no_streamEnd (jp : JsonParser) (st : SseState) (c : String) :
    ChatStreamEvent.streamEnd ∉ (processChunk jp st c).2 :=
  handleFrames_no_streamEnd jp _ _

/-- Nor the whole chunk loop. -/
theorem streamLoop_no_streamEnd (jp : JsonParser) :
    ∀ (chunks : List ChunkEntry) (st : SseState),
      ChatStreamEvent.streamEnd ∉ (streamLoop jp st chunks).2.1 := by
  intro chunks
  induction chunks with
  | nil => intro st; simp [streamLoop]
  | cons e rest ih =>
      intro st
      rcases e with ⟨ab, c⟩
      unfold streamLoop
      split
      · simp
      · match c with
        | .error msg => simp
        | .ok chunk =>
            intro hmem
            rcases List.mem_append.mp hmem with h | h
            · exact processChunk_no_streamEnd jp st chunk h
            · exact ih _ h

/-- `stream_response` never emits `StreamEnd`. -/
theorem stream_response_no_streamEnd (jp : JsonParser) (resp : HttpResponse) :
    ChatStreamEvent.streamEnd ∉ (stream_response jp resp).1 := by
  unfold stream_response
  split
  · rcases h : streamLoop jp SseState.init resp.chunks with ⟨st, evs, status⟩
    have hnot : ChatStreamEvent.streamEnd ∉ evs := by
      have := streamLoop_no_streamEnd jp resp.chunks SseState.init
      rw [h] at this
      exact this
    cases status <;> simpa using hnot
  · split <;> simp

/-- The tool loop emits only `ToolEnd` and status events. -/
theorem runTools_no_streamEnd (env : ChatEnv) (round : Nat) :
    ∀ (uses : List (String × String × String)) (i : Nat),
      ChatStreamEvent.streamEnd ∉ (runTools env round i uses).1 := by
  intro uses
  induction uses with
  | nil => intro i; simp [runTools]
  | cons u rest ih =>
      intro i hmem
      have hso : ∀ x ∈ (if env.ollamaEnabled &&
          !(execute_tool u.2.1 (parseToolInput env.jp u.2.2) (env.toolOracle round i)).2 &&
          (execute_tool u.2.1 (parseToolInput env.jp u.2.2) (env.toolOracle round i)).1.length > 3000 then
            match env.summarize (execute_tool u.2.1 (parseToolInput env.jp u.2.2)
                (env.toolOracle round i)).1 with
            | some s => ([ChatStreamEvent.ollamaStatus "summarizing"], "[Summarized]\n" ++ s)
            | none => ([ChatStreamEvent.ollamaStatus "summarizing"],
                (execute_tool u.2.1 (parseToolInput env.jp u.2.2) (env.toolOracle round i)).1)
          else ([], (execute_tool u.2.1 (parseToolInput env.jp u.2.2)
              (env.toolOracle round i)).1)).1,
          x ≠ ChatStreamEvent.streamEnd := by
        split
        · split <;> simp
        · simp
      rcases List.mem_append.mp hmem with h | h
      · rcases List.mem_append.mp h with h2 | h2
        · exact hso _ h2 rfl
        · simp at h2
      · exact ih (i + 1) h

/-- One round fetch never emits `StreamEnd`. -/
theorem roundFetch_no_streamEnd (env : ChatEnv) (round : Nat) (conv : List ChatMessage) :
    ChatStreamEvent.streamEnd ∉ (roundFetch env round conv).1 := by
  have hn1 : ChatStreamEvent.streamEnd ∉ (stream_response env.jp (env.attempt1 round)).1 :=
    stream_response_no_streamEnd env.jp (env.attempt1 round)
  have hn2 : ChatStreamEvent.streamEnd ∉ (stream_response env.jp (env.attempt2 round)).1 :=
    stream_response_no_streamEnd env.jp (env.attempt2 round)
  unfold roundFetch
  dsimp only
  rcases h1 : (stream_response env.jp (env.attempt1 round)).2 with e | r
  · by_cases he : (e == "AUTH_EXPIRED") = true
    · simp only [he, if_true]
      rcases h2 : env.refreshRetry round with re | tok
      · exact hn1
      · intro hmem
        rcases List.mem_append.mp hmem with h | h
        · exact hn1 h
        · exact hn2 h
    · simp only [he, if_false]
      exact hn1
  · exact hn1

/-- Count of an absent element is zero. -/
theorem count_eq_zero_of_not_mem {α : Type} [DecidableEq α] {a : α} {l : List α}
    (h : a ∉ l) : l.count a = 0 :=
  List.count_eq_zero.mpr h

/-- The round loop, whenever it returns without a hard error, emits
exactly one `StreamEnd`, as its final event. -/
theorem chatLoop_streamEnd (env : ChatEnv) :
    ∀ (fuel round : Nat) (conv : List ChatMessage),
      (chatLoop env fuel round conv).err = none →
      (chatLoop env fuel round conv).events.count ChatStreamEvent.streamEnd = 1 ∧
      (chatLoop env fuel round conv).events.getLast? = some ChatStreamEvent.streamEnd := by
  intro fuel
  induction fuel with
  | zero => intro round conv _; exact ⟨by simp [chatLoop], by simp [chatLoop]⟩
  | succ fuel ih =>
      intro round conv herr
      unfold chatLoop at herr ⊢
      split
      · exact ⟨by simp, by simp⟩
      · rename_i hnab
        rw [if_neg hnab] at herr
        split
        · rename_i x e hpc
          rw [hpc] at herr
          simp at herr
        · rename_i x u hpc
          rw [hpc] at herr
          rcases hrf : roundFetch env round conv with ⟨evs, sent, res⟩
          have hevs : ChatStreamEvent.streamEnd ∉ evs := by
            have := roundFetch_no_streamEnd env round conv
            rw [hrf] at this
            exact this
          rw [hrf] at herr
          cases res with
          | error e => simp at herr
          | ok r =>
              simp only at herr ⊢
              by_cases hab : (r.stop_reason == "aborted") = true
              · rw [if_pos hab]
                refine ⟨?_, ?_⟩
                · show (evs ++ [ChatStreamEvent.streamEnd]).count _ = 1
                  rw [List.count_append, count_eq_zero_of_not_mem hevs]
                  rfl
                · show (evs ++ [ChatStreamEvent.streamEnd]).getLast? = _
                  rw [List.getLast?_append_of_ne_nil _ (by simp)]
                  rfl
              · rw [if_neg hab] at herr ⊢
                by_cases htu : (r.stop_reason == "tool_use" && !r.tool_uses.isEmpty) = true
                · rw [if_pos htu] at herr ⊢
                  simp only at herr ⊢
                  obtain ⟨ihc, ihl⟩ := ih (round + 1) _ herr
                  have hrt : ChatStreamEvent.streamEnd ∉ (runTools env round 0 r.tool_uses).1 :=
                    runTools_no_streamEnd env round r.tool_uses 0
                  refine ⟨?_, ?_⟩
                  · rw [List.count_append, List.count_append,
                        count_eq_zero_of_not_mem hevs, count_eq_zero_of_not_mem hrt, ihc]
                  · have hne : (chatLoop env fuel (round + 1)
                        ((conv ++ [⟨"assistant", .blocks (assistantBlocks env.jp r)⟩]) ++
                          [⟨"user", .blocks (runTools env round 0 r.tool_uses).2⟩])).events ≠ [] := by
                      intro hnil
                      rw [hnil] at ihl
                      simp at ihl
                    rw [List.getLast?_append_of_ne_nil _ hne, ihl]
                · rw [if_neg htu] at herr ⊢
                  refine ⟨?_, ?_⟩
                  · show (evs ++ [ChatStreamEvent.streamEnd]).count _ = 1
                    rw [List.count_append, count_eq_zero_of_not_mem hevs]
                    rfl
                  · show (evs ++ [ChatStreamEvent.streamEnd]).getLast? = _
                    rw [List.getLast?_append_of_ne_nil _ (by simp)]
                    rfl

/-- C9 (amended): every `chat_send` call that returns without a hard
failure emits exactly one `StreamEnd`, and it is the final event; an
`Error` event does not terminate the sequence. -/
theorem c9_amended_stream_end_terminates (env : ChatEnv) (msgs : List ChatMessage)
    (h : (chat_send env msgs).err = none) :
    (chat_send env msgs).events.count ChatStreamEvent.streamEnd = 1 ∧
    (chat_send env msgs).events.getLast? = some ChatStreamEvent.streamEnd := by
  have hevC : ChatStreamEvent.streamEnd ∉ (compressStep env msgs).1 := by
    unfold compressStep
    split
    · rcases env.compressResult with _ | c <;> simp
    · simp
  unfold chat_send at h ⊢
  rcases hg : env.getTok0 with e | tok
  · rw [hg] at h
    simp at h
  · rw [hg] at h
    dsimp only at h ⊢
    obtain ⟨hc1, hl1⟩ := chatLoop_streamEnd env MAX_TOOL_ROUNDS 0 (compressStep env msgs).2 h
    constructor
    · rw [show (ChatStreamEvent.streamStart :: (compressStep env msgs).1 ++
          (chatLoop env MAX_TOOL_ROUNDS 0 (compressStep env msgs).2).events) =
          ((ChatStreamEvent.streamStart :: (compressStep env msgs).1) ++
            (chatLoop env MAX_TOOL_ROUNDS 0 (compressStep env msgs).2).events) from rfl,
        List.count_append, hc1]
      have hni : ChatStreamEvent.streamEnd ∉
          ChatStreamEvent.streamStart :: (compressStep env msgs).1 := by
        intro hmem
        rcases List.mem_cons.mp hmem with hmc | hmc
        · cases hmc
        · exact hevC hmc
      rw [count_eq_zero_of_not_mem hni]
    · have hne : (chatLoop env MAX_TOOL_ROUNDS 0 (compressStep env msgs).2).events ≠ [] := by
        intro hnil
        rw [hnil] at hl1
        simp at hl1
      rw [show (ChatStreamEvent.streamStart :: (compressStep env msgs).1 ++
          (chatLoop env MAX_TOOL_ROUNDS 0 (compressStep env msgs).2).events) =
          ((ChatStreamEvent.streamStart :: (compressStep env msgs).1) ++
            (chatLoop env MAX_TOOL_ROUNDS 0 (compressStep env msgs).2).events) from rfl,
        List.getLast?_append_of_ne_nil _ hne, hl1]

/-- The concrete environment of the C9 counterexample: the provider
answers 200 and streams a single `error` frame, then the stream ends with
an empty stop reason. -/
def c9Env : ChatEnv where
  jp := fun _ => none
  getTok0 := .ok "tok"
  tokCheck := fun _ => .ok "tok"
  refreshPre := fun _ => .ok "tok"
  refreshRetry := fun _ => .ok "tok"
  attempt1 := fun _ => ⟨200, "", [(false, .ok "event: error\ndata: boom\n\n")]⟩
  attempt2 := fun _ => ⟨200, "", []⟩
  abortAt := fun _ => false
  ollamaEnabled := false
  compressResult := none
  summarize := fun _ => none
  toolOracle := fun _ _ => ⟨.timedOut, .ok "", none, .err ""⟩

/-- C9 counterexample: a conversation call whose provider stream carries
an `error` frame emits `Error` and then `StreamEnd` — two terminating
events, with events following the `Error` — so the emitted sequence is
not terminated by exactly one `StreamEnd`-or-`Error`. -/
theorem c9_counterexample :
    (chat_send c9Env []).events =
      [.streamStart, .error "boom", .streamEnd] ∧
    terminatedByExactlyOne (chat_send c9Env []).events = false := by
  constructor
  · decide
  · decide

/-- Witness for the amended C9 at the same concrete call. -/
theorem c9_amended_stream_end_terminates_witness :
    (chat_send c9Env []).err = none ∧
    ((chat_send c9Env []).events.count ChatStreamEvent.streamEnd = 1 ∧
     (chat_send c9Env []).events.getLast? = some ChatStreamEvent.streamEnd) :=
  ⟨by decide, c9_amended_stream_end_terminates c9Env [] (by decide)⟩

/-- C10: over any bridge delivery sequence started from the empty state,
at most one `ToolStart` is ever emitted per tool-call id; and a tool part
reaching the `completed` state always has a `ToolStart` with its call id
emitted strictly before its `ToolEnd` — a call first observed `completed`
gets the `ToolStart` backfilled immediately before the `ToolEnd`. -/
theorem c10_toolstart_once (sess : String) (dedup : List String) :
    (∀ (ps : List SsePart) (c : String),
        toolStartCount c (runParts sess dedup ⟨[], []⟩ ps).2 ≤ 1) ∧
    (∀ (ps : List SsePart) (part : SsePart) (stateJson : Json),
        part.sessionId = sess →
        (∀ mid, part.messageId = some mid → dedup.contains mid = false) →
        part.partType = "tool" → part.state = some stateJson →
        (stateJson.getField "status").asStr.getD "" = "completed" →
        ∃ pre out nm,
          (runParts sess dedup ⟨[], []⟩ (ps ++ [part])).2 =
            pre ++ [.toolEnd (part.callId.getD "") out] ∧
          ChatStreamEvent.toolStart nm (part.callId.getD "") ∈ pre) := by
  constructor
  · intro ps c
    have hinv := (runParts_start_inv sess dedup ps ⟨[], []⟩ c).1 (by simp)
    rw [hinv]
    split <;> simp
  · intro ps part stateJson hsess hdedup htype hstate hstatus
    have hfilter : ∀ s : BridgeState, handlePartUpdated sess dedup s part =
        handleToolPart s (part.callId.getD "") (part.tool.getD "unknown") stateJson := by
      intro s
      have hbody : handlePartBody s part =
          handleToolPart s (part.callId.getD "") (part.tool.getD "unknown") stateJson := by
        unfold handlePartBody
        rw [htype, hstate]
        rfl
      unfold handlePartUpdated
      rw [hsess]
      simp only [bne_self_eq_false, Bool.false_eq_true, if_false]
      cases hm : part.messageId with
      | none => exact hbody
      | some mid =>
          simp only [hdedup mid hm, Bool.false_eq_true, if_false]
          exact hbody
    have happ := runParts_append sess dedup ps [part] ⟨[], []⟩
    have hone : ∀ s : BridgeState, runParts sess dedup s [part] =
        ((handlePartUpdated sess dedup s part).1,
         (handlePartUpdated sess dedup s part).2 ++ []) := fun s => rfl
    set st1 := (runParts sess dedup ⟨[], []⟩ ps).1 with hst1
    set evs1 := (runParts sess dedup ⟨[], []⟩ ps).2 with hevs1
    set callId := part.callId.getD "" with hcid
    set toolName := part.tool.getD "unknown" with htn
    set out := (((stateJson.getField "metadata").getField "output").asStr <|>
        (stateJson.getField "output").asStr).getD "" with hout
    have hct : handleToolPart st1 callId toolName stateJson =
        if callId ∈ st1.toolStarted then (st1, [.toolEnd callId out])
        else ({ st1 with toolStarted := callId :: st1.toolStarted },
              [.toolStart toolName callId, .toolEnd callId out]) := by
      unfold handleToolPart
      rw [hstatus]
      rfl
    by_cases hmem : callId ∈ st1.toolStarted
    · have hinv := (runParts_start_inv sess dedup ps ⟨[], []⟩ callId).1 (by simp)
      have hcount : toolStartCount callId evs1 = 1 := by
        rw [hevs1, hinv, if_pos hmem]
      obtain ⟨nm, hnm⟩ := exists_toolStart_of_count_pos callId evs1
        (by rw [hcount]; exact Nat.one_pos)
      refine ⟨evs1, out, nm, ?_, hnm⟩
      rw [happ, hone, hfilter, hct, if_pos hmem]
      rfl
    · refine ⟨evs1 ++ [.toolStart toolName callId], out, toolName, ?_, by simp⟩
      rw [happ, hone, hfilter, hct, if_neg hmem]
      simp

/-- Witness for C10: a call first observed in the `completed` state gets
`ToolStart` then `ToolEnd`. -/
theorem c10_toolstart_once_witness :
    ∃ pre out nm,
      (runParts "s" [] ⟨[], []⟩
          [⟨"pt", "s", none, "tool", none, some "t", some "c1",
            some (Json.obj [("status", Json.str "completed")])⟩]).2 =
        pre ++ [.toolEnd "c1" out] ∧
      ChatStreamEvent.toolStart nm "c1" ∈ pre := by
  have h := (c10_toolstart_once "s" []).2 []
      ⟨"pt", "s", none, "tool", none, some "t", some "c1",
        some (Json.obj [("status", Json.str "completed")])⟩
      (Json.obj [("status", Json.str "completed")])
      rfl (fun mid hm => by cases hm) rfl rfl (by decide)
  simpa using h

/-- Witness for C7 at a concrete silent trace: 61 s of silence, one nudge;
then an exhausted reconnect entry emits the terminal error. -/
theorem c7_idle_keepalive_witness :
    ((⟨0, 0⟩ : IdleSt).pingCount < MAX_IDLE_PINGS ∧ IDLE_TIMEOUT ≤ 61 - (⟨0, 0⟩ : IdleSt).lastAct ∧
     runBridge ⟨0, 0⟩ false [.readTimeout 61] =
       (61 :: (runBridge ⟨1, 61⟩ false []).1,
        (runBridge ⟨1, 61⟩ false []).2.1, (runBridge ⟨1, 61⟩ false []).2.2)) ∧
    (MAX_IDLE_PINGS ≤ (⟨3, 100⟩ : IdleSt).pingCount ∧
     IDLE_TIMEOUT ≤ (BridgeObs.disconnect 161).time - (⟨3, 100⟩ : IdleSt).lastAct ∧
     runBridge ⟨3, 100⟩ true [.disconnect 161] =
       ([], [.error exhaustedMsg], .okErrorExhausted)) :=
  ⟨⟨by decide, by decide,
    c7_idle_keepalive.1 ⟨0, 0⟩ 61 [] (by decide) (by decide)⟩,
   ⟨by decide, by decide,
    c7_idle_keepalive.2.2.2.1 ⟨3, 100⟩ (.disconnect 161) []
      (fun m h => by cases h) (by decide) (by decide)⟩⟩

end Winter
